import Mathlib

/-!
Verification of the event-store merge / validation / submission logic of the
Kentucky flood StoryMap application (`app.py`).

The Python values flowing through the program (YAML/JSON data, event records)
are modelled by the inductive `Val`; records (Python dicts with string keys)
are association lists `List (String × Val)` with insertion order preserved,
exactly as CPython dicts preserve insertion order.  Numbers are modelled as
rationals: the program performs no arithmetic on them beyond comparison, so
every comparison it makes on its decimal literals agrees with `ℚ`.
-/

inductive Val where
  | null : Val
  | bool (b : Bool) : Val
  | num (q : ℚ) : Val
  | str (s : String) : Val
  | list (l : List Val) : Val
  | map (m : List (String × Val)) : Val

mutual

/-- Structural equality on modelled values (Python `==` on JSON/YAML data). -/
def Val.beq : Val → Val → Bool
  | .null, .null => true
  | .bool a, .bool b => a == b
  | .num a, .num b => a == b
  | .str a, .str b => a == b
  | .list a, .list b => Val.beqList a b
  | .map a, .map b => Val.beqMap a b
  | _, _ => false

def Val.beqList : List Val → List Val → Bool
  | [], [] => true
  | a :: as, b :: bs => Val.beq a b && Val.beqList as bs
  | _, _ => false

def Val.beqMap : List (String × Val) → List (String × Val) → Bool
  | [], [] => true
  | (k, v) :: as, (j, w) :: bs => k == j && Val.beq v w && Val.beqMap as bs
  | _, _ => false

end

mutual

theorem Val.beq_iff : ∀ a b : Val, Val.beq a b = true ↔ a = b
  | .null, .null => by simp [Val.beq]
  | .null, .bool _ => by simp [Val.beq]
  | .null, .num _ => by simp [Val.beq]
  | .null, .str _ => by simp [Val.beq]
  | .null, .list _ => by simp [Val.beq]
  | .null, .map _ => by simp [Val.beq]
  | .bool _, .null => by simp [Val.beq]
  | .bool _, .bool _ => by simp [Val.beq]
  | .bool _, .num _ => by simp [Val.beq]
  | .bool _, .str _ => by simp [Val.beq]
  | .bool _, .list _ => by simp [Val.beq]
  | .bool _, .map _ => by simp [Val.beq]
  | .num _, .null => by simp [Val.beq]
  | .num _, .bool _ => by simp [Val.beq]
  | .num _, .num _ => by simp [Val.beq]
  | .num _, .str _ => by simp [Val.beq]
  | .num _, .list _ => by simp [Val.beq]
  | .num _, .map _ => by simp [Val.beq]
  | .str _, .null => by simp [Val.beq]
  | .str _, .bool _ => by simp [Val.beq]
  | .str _, .num _ => by simp [Val.beq]
  | .str _, .str _ => by simp [Val.beq]
  | .str _, .list _ => by simp [Val.beq]
  | .str _, .map _ => by simp [Val.beq]
  | .list _, .null => by simp [Val.beq]
  | .list _, .bool _ => by simp [Val.beq]
  | .list _, .num _ => by simp [Val.beq]
  | .list _, .str _ => by simp [Val.beq]
  | .list a, .list b => by simp [Val.beq, Val.beqList_iff a b]
  | .list _, .map _ => by simp [Val.beq]
  | .map _, .null => by simp [Val.beq]
  | .map _, .bool _ => by simp [Val.beq]
  | .map _, .num _ => by simp [Val.beq]
  | .map _, .str _ => by simp [Val.beq]
  | .map _, .list _ => by simp [Val.beq]
  | .map a, .map b => by simp [Val.beq, Val.beqMap_iff a b]

theorem Val.beqList_iff : ∀ as bs : List Val, Val.beqList as bs = true ↔ as = bs
  | [], [] => by simp [Val.beqList]
  | [], _ :: _ => by simp [Val.beqList]
  | _ :: _, [] => by simp [Val.beqList]
  | a :: as, b :: bs => by
      simp [Val.beqList, Val.beq_iff a b, Val.beqList_iff as bs]

theorem Val.beqMap_iff : ∀ as bs : List (String × Val), Val.beqMap as bs = true ↔ as = bs
  | [], [] => by simp [Val.beqMap]
  | [], _ :: _ => by simp [Val.beqMap]
  | _ :: _, [] => by simp [Val.beqMap]
  | (k, v) :: as, (j, w) :: bs => by
      simp [Val.beqMap, Val.beq_iff v w, Val.beqMap_iff as bs, Prod.ext_iff, and_assoc]

end

instance : DecidableEq Val := fun a b =>
  decidable_of_iff (Val.beq a b = true) (Val.beq_iff a b)

/-- Python truthiness on the modelled values: `None`, `False`, `0`, `""`,
`[]` and `{}` are falsy, everything else truthy. -/
def pyFalsy : Val → Bool
  | .null => true
  | .bool b => !b
  | .num q => q == 0
  | .str s => s == ""
  | .list l => l.isEmpty
  | .map m => m.isEmpty

/-- An event record: a Python dict with string keys, insertion-ordered. -/
abbrev Rec : Type := List (String × Val)

section Dict

variable {κ α : Type} [DecidableEq κ]

/-- `d[k] = v` on an insertion-ordered dict: an existing key keeps its
position and gets the new value, a fresh key is appended at the end —
exactly CPython dict assignment. -/
def dictInsert (m : List (κ × α)) (k : κ) (v : α) : List (κ × α) :=
  if (m.find? (fun p => p.1 = k)).isSome then
    m.map (fun p => if p.1 = k then (k, v) else p)
  else m ++ [(k, v)]

/-- Ordered-dict lookup. -/
def dictFind (m : List (κ × α)) (k : κ) : Option α :=
  (m.find? (fun p => p.1 = k)).map (fun p => p.2)

end Dict

/-- `d.get(k)` / `d[k]` on a record (string-keyed dict). -/
def alistLookup (m : List (String × Val)) (k : String) : Option Val :=
  dictFind m k

/-- `{**a, **b}`: start from `a` and assign every binding of `b` in order
(shallow top-level merge; only keys literally present in `b` are written). -/
def dictMerge (a b : List (String × Val)) : List (String × Val) :=
  b.foldl (fun acc p => dictInsert acc p.1 p.2) a

/-!
## Event store: `load_events` (app.py lines 149–165)

```python
def load_events():
    events = BUILTIN_EVENTS.copy()
    path = Path("data/events.yaml")
    if yaml and path.exists():
        try:
            with open(path) as f:
                extra = yaml.safe_load(f) or []
                if isinstance(extra, list):
                    by_id = {e["id"]: e for e in events}
                    for e in extra:
                        if isinstance(e, dict) and "id" in e:
                            by_id[e["id"]] = {**by_id.get(e["id"], {}), **e}
                    events = list(by_id.values())
        except Exception as e:
            st.warning(...)
    events.sort(key=lambda x: x.get("year", 0))
    return events
```

The external file is modelled by `ExtInput`: absent file, unreadable file
(any exception inside the `try`: the `except` falls back to the builtins),
or a successfully parsed value.
-/

inductive ExtInput where
  | absent : ExtInput
  | unreadable : ExtInput
  | parsed (v : Val) : ExtInput

/-- Sort key `x.get("year", 0)`.  A present non-numeric year would make the
Python comparison raise `TypeError`; theorems about the sorted output
therefore carry a `yearOk` hypothesis, under which this key is faithful. -/
def yearKey (r : Rec) : ℚ :=
  match alistLookup r "year" with
  | some (Val.num q) => q
  | some _ => 0
  | none => 0

/-- The record's `year` field is absent or numeric (so the Python sort-key
comparisons are defined and agree with `yearKey`). -/
def yearOk (r : Rec) : Prop :=
  alistLookup r "year" = none ∨ ∃ q : ℚ, alistLookup r "year" = some (Val.num q)

def yearLE (a b : Rec) : Prop := yearKey a ≤ yearKey b

instance : DecidableRel yearLE := fun a b => by
  unfold yearLE
  infer_instance

instance : IsTotal Rec yearLE := ⟨fun a b => le_total (yearKey a) (yearKey b)⟩

instance : IsTrans Rec yearLE := ⟨fun _ _ _ h h2 => le_trans h h2⟩

/-- `{e["id"]: e for e in events}` — fails (`KeyError`, caught by the
surrounding `try`) when some record has no `id` key. -/
def buildById (events : List Rec) : Option (List (Val × Rec)) :=
  events.foldlM
    (fun m e =>
      match alistLookup e "id" with
      | some i => some (dictInsert m i e)
      | none => none)
    []

/-- One iteration of the `for e in extra` merge loop: non-dict entries and
entries without an `id` key are skipped; a dict entry is shallow-merged over
the current entry with the same id (or over `{}` when the id is new). -/
def mergeStep (m : List (Val × Rec)) (e : Val) : List (Val × Rec) :=
  match e with
  | Val.map em =>
      match alistLookup em "id" with
      | some i => dictInsert m i (dictMerge ((dictFind m i).getD []) em)
      | none => m
  | _ => m

/-- The `for e in extra` merge loop. -/
def mergeExtra (m : List (Val × Rec)) (extra : List Val) : List (Val × Rec) :=
  extra.foldl mergeStep m

/-- `load_events`, parametrised by the builtin list and the external file.
`List.insertionSort` models Python's stable `list.sort` (any two stable
sorts under a total transitive comparison agree). -/
def load_events (builtin : List Rec) (ext : ExtInput) : List Rec :=
  let events : List Rec :=
    match ext with
    | .absent => builtin
    | .unreadable => builtin
    | .parsed v =>
        let extra := if pyFalsy v then Val.list [] else v
        match extra with
        | Val.list l =>
            match buildById builtin with
            | some m0 => (mergeExtra m0 l).map (fun p => p.2)
            | none => builtin
        | _ => builtin
  List.insertionSort yearLE events

/-!
## Identifier normalizer: `slugify` (app.py lines 298–301)

```python
def slugify(s: str) -> str:
    s = s.lower().strip()
    s = re.sub(r"[^a-z0-9]+", "_", s)
    return re.sub(r"_+", "_", s).strip("_")
```

`build_event_payload` derives the identifier as `slugify(f"{year}_{name}")`
(line 353).  `Char.toLower` models `str.lower` (they agree on ASCII, the
alphabet all identifier claims quantify over), and Python's `str.strip()`
whitespace set is modelled by its ASCII members.
-/

/-- The whitespace characters removed by Python `str.strip()` (ASCII part). -/
def pySpace (c : Char) : Bool :=
  c = ' ' || c = '\t' || c = '\n' || c = '\x0d' || c = '\x0b' || c = '\x0c'

/-- Strip characters satisfying `p` from both ends (`str.strip`). -/
def stripEnds (p : Char → Bool) (l : List Char) : List Char :=
  ((l.dropWhile p).reverse.dropWhile p).reverse

def isLowerAlnum (c : Char) : Bool :=
  ('a' ≤ c && c ≤ 'z') || ('0' ≤ c && c ≤ '9')

/-- `re.sub(p+, sub, ·)`: every maximal run of characters satisfying `p`
becomes the single character `sub`.  The flag records whether the previous
character was inside such a run. -/
def replaceRuns (p : Char → Bool) (sub : Char) : List Char → Bool → List Char
  | [], _ => []
  | c :: rest, inRun =>
      if p c then
        if inRun then replaceRuns p sub rest true
        else sub :: replaceRuns p sub rest true
      else c :: replaceRuns p sub rest false

def slugify (s : String) : String :=
  let l1 := stripEnds pySpace (s.data.map Char.toLower)
  let l2 := replaceRuns (fun c => !isLowerAlnum c) '_' l1 false
  let l3 := replaceRuns (fun c => c = '_') '_' l2 false
  String.mk (stripEnds (fun c => c = '_') l3)

/-- The identifier for a contributed event: `slugify(f"{year}_{name}")`
(app.py line 353). -/
def make_id (year : Int) (name : String) : String :=
  slugify (toString year ++ "_" ++ name)

example : make_id 1937 "Ohio River Flood!!" = "1937_ohio_river_flood" := by decide

/-!
## JSON parsing (`json.loads`) and `validate_geojson` (app.py lines 331–338)

`json.loads` is modelled by a strict recursive-descent JSON parser over the
character list; `none` models a raised `JSONDecodeError`.  Numbers are read
exactly as rationals (the program never does arithmetic on parsed numbers,
so comparisons agree).  Object construction uses `dictInsert`, matching
CPython's last-wins, first-position duplicate-key handling.
-/

def jsonWs (c : Char) : Bool :=
  c = ' ' || c = '\t' || c = '\n' || c = '\x0d'

def expectChars : List Char → List Char → Option (List Char)
  | [], cs => some cs
  | e :: es, c :: cs => if c = e then expectChars es cs else none
  | _ :: _, [] => none

def hexVal (c : Char) : Option Nat :=
  if '0' ≤ c && c ≤ '9' then some (c.toNat - 48)
  else if 'a' ≤ c && c ≤ 'f' then some (c.toNat - 87)
  else if 'A' ≤ c && c ≤ 'F' then some (c.toNat - 55)
  else none

def natOfDigits (l : List Char) : Nat :=
  l.foldl (fun a c => a * 10 + (c.toNat - 48)) 0

/-- Parse the body of a JSON string, the opening quote already consumed. -/
def pStr : List Char → Option (List Char × List Char)
  | [] => none
  | '"' :: rest => some ([], rest)
  | '\\' :: rest =>
      match rest with
      | '"' :: r => (pStr r).map (fun p => ('"' :: p.1, p.2))
      | '\\' :: r => (pStr r).map (fun p => ('\\' :: p.1, p.2))
      | '/' :: r => (pStr r).map (fun p => ('/' :: p.1, p.2))
      | 'b' :: r => (pStr r).map (fun p => ('\x08' :: p.1, p.2))
      | 'f' :: r => (pStr r).map (fun p => ('\x0c' :: p.1, p.2))
      | 'n' :: r => (pStr r).map (fun p => ('\n' :: p.1, p.2))
      | 'r' :: r => (pStr r).map (fun p => ('\x0d' :: p.1, p.2))
      | 't' :: r => (pStr r).map (fun p => ('\t' :: p.1, p.2))
      | 'u' :: h1 :: h2 :: h3 :: h4 :: r =>
          match hexVal h1, hexVal h2, hexVal h3, hexVal h4 with
          | some a, some b, some c, some d =>
              (pStr r).map (fun p => (Char.ofNat (((a * 16 + b) * 16 + c) * 16 + d) :: p.1, p.2))
          | _, _, _, _ => none
      | _ => none
  | c :: rest =>
      if c.toNat < 32 then none
      else (pStr rest).map (fun p => (c :: p.1, p.2))

/-- Parse a JSON number (strict JSON grammar; exact rational value). -/
def pNum (cs : List Char) : Option (Val × List Char) :=
  let sign := match cs with
    | '-' :: r => (true, r)
    | _ => (false, cs)
  match sign.2 with
  | [] => none
  | c :: rest =>
    if c.isDigit then
      let ints := if c = '0' then ([c], rest) else List.span Char.isDigit (c :: rest)
      let ip : ℚ := (natOfDigits ints.1 : ℕ)
      let withFrac : Option (ℚ × List Char) :=
        match ints.2 with
        | '.' :: r2 =>
            match List.span Char.isDigit r2 with
            | ([], _) => none
            | (fds, r3) => some (ip + (natOfDigits fds : ℕ) / ((10 : ℚ) ^ fds.length), r3)
        | _ => some (ip, ints.2)
      match withFrac with
      | none => none
      | some (q, cs3) =>
        let withExp : Option (ℚ × List Char) :=
          match cs3 with
          | e :: r4 =>
              if e = 'e' ∨ e = 'E' then
                let es := match r4 with
                  | '+' :: r => (false, r)
                  | '-' :: r => (true, r)
                  | _ => (false, r4)
                match List.span Char.isDigit es.2 with
                | ([], _) => none
                | (eds, r6) =>
                    let en := natOfDigits eds
                    some (if es.1 then q / (10 : ℚ) ^ en else q * (10 : ℚ) ^ en, r6)
              else some (q, cs3)
          | [] => some (q, cs3)
        match withExp with
        | none => none
        | some (q2, cs4) => some (Val.num (if sign.1 then -q2 else q2), cs4)
    else none

mutual

/-- Parse one JSON value; the fuel only bounds recursion depth and is chosen
large enough at the top level that it is never the reason for failure. -/
def pVal : Nat → List Char → Option (Val × List Char)
  | 0, _ => none
  | fuel + 1, cs =>
    match cs.dropWhile jsonWs with
    | [] => none
    | '{' :: rest => pObj fuel rest
    | '[' :: rest => pArr fuel rest
    | '"' :: rest => (pStr rest).map (fun p => (Val.str (String.mk p.1), p.2))
    | 'n' :: rest => (expectChars ['u', 'l', 'l'] rest).map (fun r => (Val.null, r))
    | 't' :: rest => (expectChars ['r', 'u', 'e'] rest).map (fun r => (Val.bool true, r))
    | 'f' :: rest => (expectChars ['a', 'l', 's', 'e'] rest).map (fun r => (Val.bool false, r))
    | c :: rest => pNum (c :: rest)

/-- Parse an array body, the `[` already consumed. -/
def pArr : Nat → List Char → Option (Val × List Char)
  | 0, _ => none
  | fuel + 1, cs =>
    match cs.dropWhile jsonWs with
    | ']' :: rest => some (Val.list [], rest)
    | cs2 =>
      match pVal fuel cs2 with
      | none => none
      | some (v, r1) => pArrRest fuel [v] r1

def pArrRest : Nat → List Val → List Char → Option (Val × List Char)
  | 0, _, _ => none
  | fuel + 1, acc, cs =>
    match cs.dropWhile jsonWs with
    | ',' :: rest =>
        match pVal fuel rest with
        | none => none
        | some (v, r1) => pArrRest fuel (acc ++ [v]) r1
    | ']' :: rest => some (Val.list acc, rest)
    | _ => none

/-- Parse an object body, the `{` already consumed. -/
def pObj : Nat → List Char → Option (Val × List Char)
  | 0, _ => none
  | fuel + 1, cs =>
    match cs.dropWhile jsonWs with
    | '}' :: rest => some (Val.map [], rest)
    | '"' :: r2 =>
        match pStr r2 with
        | none => none
        | some (kcs, r3) =>
          match r3.dropWhile jsonWs with
          | ':' :: r4 =>
              match pVal fuel r4 with
              | none => none
              | some (v, r5) => pObjRest fuel (dictInsert [] (String.mk kcs) v) r5
          | _ => none
    | _ => none

def pObjRest : Nat → List (String × Val) → List Char → Option (Val × List Char)
  | 0, _, _ => none
  | fuel + 1, acc, cs =>
    match cs.dropWhile jsonWs with
    | ',' :: rest =>
        match rest.dropWhile jsonWs with
        | '"' :: r2 =>
            match pStr r2 with
            | none => none
            | some (kcs, r3) =>
              match r3.dropWhile jsonWs with
              | ':' :: r4 =>
                  match pVal fuel r4 with
                  | none => none
                  | some (v, r5) => pObjRest fuel (dictInsert acc (String.mk kcs) v) r5
              | _ => none
        | _ => none
    | '}' :: rest => some (Val.map acc, rest)
    | _ => none

end

/-- `json.loads`: parse a full document, allowing only trailing whitespace. -/
def json_loads (s : String) : Option Val :=
  match pVal (2 * s.length + 2) s.data with
  | some (v, rest) => if (rest.dropWhile jsonWs).isEmpty then some v else none
  | none => none

/-!
## `validate_geojson` and `parse_optional_json` (app.py lines 322–338)

```python
def validate_geojson(txt: str) -> Optional[Dict[str, Any]]:
    try:
        gj = json.loads(txt)
        if isinstance(gj, dict) and gj.get("type") == "FeatureCollection" \
           and isinstance(gj.get("features"), list):
            return gj
    except Exception:
        pass
    return None
```
-/

def validate_geojson (txt : String) : Option (List (String × Val)) :=
  match json_loads txt with
  | some (Val.map gj) =>
      if alistLookup gj "type" = some (Val.str "FeatureCollection") then
        match alistLookup gj "features" with
        | some (Val.list _) => some gj
        | _ => none
      else none
  | _ => none

/-- `parse_optional_json`: empty-after-strip text or a non-list / unparsable
document falls back. -/
def parse_optional_json (txt : String) (fallback : List Val) : List Val :=
  if (txt.data.dropWhile pySpace).isEmpty then fallback
  else
    match json_loads txt with
    | some (Val.list l) => l
    | _ => fallback



/-!
## `build_event_payload` (app.py lines 340–361)

The two `st.error` calls before the early `return None`s become the
`Except.error` messages.  The required-field test is Python truthiness of
the three strings (`not (name and summary and geojson_text)`); for the
result of `validate_geojson` the test `if not geojson` is truthiness of the
returned dict (falsy only when empty).
-/

def build_event_payload (name : String) (year : Int) (dates : String) (summary : String)
    (deaths : Int) (damages : ℚ) (counties_str : String) (markers_json : String)
    (geojson_text : String) (photos_json : String) (resources_json : String) :
    Except String Rec :=
  if name = "" ∨ summary = "" ∨ geojson_text = "" then
    Except.error "Please provide at least **Event name**, **Summary**, and **GeoJSON**."
  else
    match validate_geojson geojson_text with
    | none => Except.error "GeoJSON must be a valid **FeatureCollection** with a features list."
    | some gj =>
      if pyFalsy (Val.map gj) then
        Except.error "GeoJSON must be a valid **FeatureCollection** with a features list."
      else
        let counties : List String :=
          if counties_str = "" then []
          else ((counties_str.split (fun c => c = ',')).map
                  (fun c => String.mk (stripEnds pySpace c.data))).filter (fun c => c ≠ "")
        let markers := parse_optional_json markers_json []
        let photos := parse_optional_json photos_json []
        let resources := parse_optional_json resources_json []
        let eid := make_id year name
        Except.ok
          [("id", Val.str eid),
           ("name", Val.str name),
           ("year", Val.num (year : ℚ)),
           ("dates", Val.str dates),
           ("summary", Val.str summary),
           ("deaths", Val.num (deaths : ℚ)),
           ("damages_usd_bil", if damages = 0 then Val.null else Val.num damages),
           ("counties", Val.list (counties.map Val.str)),
           ("geojson", Val.map gj),
           ("markers", Val.list markers),
           ("river_crests", Val.list []),
           ("photos", Val.list photos),
           ("resources", Val.list resources)]

/-!
## Geometry bounds helper: `bounds_from_geom` (app.py lines 231–247)

```python
def bounds_from_geom(coords):
    acc = [90, 180, -90, -180]
    def walk(c):
        if not c: return
        if isinstance(c[0], (int, float)):
            lon, lat = c[0], c[1]
            acc[0] = min(acc[0], lat); acc[1] = min(acc[1], lon)
            acc[2] = max(acc[2], lat); acc[3] = max(acc[3], lon)
        else:
            for cc in c: walk(cc)
    walk(coords); return [[acc[0], acc[1]],[acc[2], acc[3]]]
```

A nested coordinate structure is a `Coord` (a number or an array).  `walk`
threads the accumulator; `none` models a raised exception (`c[1]` missing,
or `c[1]` not a number so `min` raises `TypeError`, or a non-zero number
where a sequence is expected).  A number `0` is falsy, so `walk(0)` returns
without touching the accumulator, like any other falsy `c`.
-/

inductive Coord where
  | num (q : ℚ) : Coord
  | arr (l : List Coord) : Coord

structure BBox where
  minLat : ℚ
  minLon : ℚ
  maxLat : ℚ
  maxLon : ℚ
deriving DecidableEq

/-- Python `min(a, b)` on numbers (kernel-reducible, unlike the lattice
`min` on `ℚ`). -/
def pyMin (a b : ℚ) : ℚ := if a ≤ b then a else b

/-- Python `max(a, b)` on numbers. -/
def pyMax (a b : ℚ) : ℚ := if b ≤ a then a else b

mutual

def walk : Coord → BBox → Option BBox
  | .num q, acc => if q = 0 then some acc else none
  | .arr [], acc => some acc
  | .arr (Coord.num lon :: rest), acc =>
      match rest with
      | Coord.num lat :: _ =>
          some ⟨pyMin acc.minLat lat, pyMin acc.minLon lon,
                pyMax acc.maxLat lat, pyMax acc.maxLon lon⟩
      | _ => none
  | .arr (Coord.arr a :: rest), acc => walkAll (Coord.arr a :: rest) acc

def walkAll : List Coord → BBox → Option BBox
  | [], acc => some acc
  | c :: cs, acc =>
      match walk c acc with
      | some acc2 => walkAll cs acc2
      | none => none

end

/-- `bounds_from_geom`; `none` models an escaped exception (swallowed by the
caller's bare `except`). -/
def bounds_from_geom (coords : Coord) : Option (List (List ℚ)) :=
  match walk coords ⟨90, 180, -90, -180⟩ with
  | some acc => some [[acc.minLat, acc.minLon], [acc.maxLat, acc.maxLon]]
  | none => none

example :
    bounds_from_geom (Coord.arr [Coord.arr [Coord.num (-89), Coord.num (37.2 : ℚ)],
      Coord.arr [Coord.num (-88.3 : ℚ), Coord.num (37.1 : ℚ)],
      Coord.arr [Coord.num (-87.7 : ℚ), Coord.num (37.3 : ℚ)]]) =
      some [[(37.1 : ℚ), -89], [(37.3 : ℚ), (-87.7 : ℚ)]] := by
  norm_num [bounds_from_geom, walk, walkAll, pyMin, pyMax]
example : bounds_from_geom (Coord.arr []) = some [[90, 180], [-90, -180]] := by decide

/-!
## Upsert into the persisted blob: `append_event_to_yaml_text` (app.py 375–389)

```python
def append_event_to_yaml_text(yaml_text, event_obj):
    data = []
    if yaml_text.strip():
        try:
            existing = yaml.safe_load(yaml_text) or []
            if isinstance(existing, list):
                data = existing
        except Exception:
            pass
    by_id = {e.get("id"): e for e in data if isinstance(e, dict) and "id" in e}
    by_id[event_obj["id"]] = event_obj
    new_list = list(by_id.values())
    new_list.sort(key=lambda x: x.get("year", 0))
    return yaml.safe_dump(new_list, sort_keys=False, allow_unicode=True)
```

The YAML text layer (`safe_load` / `safe_dump`) is a bijective transport
between blob text and the parsed sequence (and every fallback — empty blob,
unparsable blob, non-list document — yields `data = []`), so the operation
is modelled on the parsed sequence `data : List Val` directly; its result is
the sorted record list that `safe_dump` would serialize.  `none` models the
`KeyError` from `event_obj["id"]` when the record has no `id` key. -/
def upsertStep (m : List (Val × Rec)) (e : Val) : List (Val × Rec) :=
  match e with
  | Val.map em =>
      match alistLookup em "id" with
      | some j => dictInsert m j em
      | none => m
  | _ => m

def append_event_to_yaml (data : List Val) (event_obj : Rec) : Option (List Rec) :=
  match alistLookup event_obj "id" with
  | none => none
  | some i =>
    let by_id : List (Val × Rec) := data.foldl upsertStep []
    let by_id := dictInsert by_id i event_obj
    some (List.insertionSort yearLE (by_id.map (fun p => p.2)))

/-!
## Submission handler (app.py lines 391–425)

The `if submitted:` block.  Transport exceptions from `requests.get` /
`requests.put` are the `Except.error` alternative of the corresponding
response; the result triple is the user-visible outcome together with the
number of GET and PUT requests issued.  Each distinct `st.error` /
`st.success` call site is one `Outcome` constructor, carrying the verbatim
status code and response body where the source interpolates them.
-/

structure FormInput where
  name : String
  year : Int
  dates : String
  deaths : Int
  damages : ℚ
  counties_str : String
  summary : String
  markers_json : String
  geojson_text : String
  photos_json : String
  resources_json : String

structure GhConfig where
  token : String
  repo : String
  branch : String
  path : String

/-- A response from the remote content API: HTTP status, the `sha`
fingerprint from the body, the decoded and parsed prior store (the base64
and YAML text layers are bijective transports), and the raw body text. -/
structure HttpResp where
  status : Nat
  sha : Option String
  content : Option (List Val)
  text : String

inductive Outcome where
  | success : Outcome
  | validationError (msg : String) : Outcome
  | disabled : Outcome
  | readError (status : Nat) (text : String) : Outcome
  | writeError (status : Nat) (text : String) : Outcome
  | submitFailed (msg : String) : Outcome
deriving DecidableEq

/-- The append-then-PUT tail of the handler (one GET already issued). -/
def handlePut (event_obj : Rec) (existing : List Val)
    (putResp : Except String HttpResp) : Outcome × Nat × Nat :=
  match append_event_to_yaml existing event_obj with
  | none => (.submitFailed "Submission failed: KeyError", 1, 0)
  | some _ =>
    match putResp with
    | .error e => (.submitFailed ("Submission failed: " ++ e), 1, 1)
    | .ok put =>
        if put.status = 200 ∨ put.status = 201 then (.success, 1, 1)
        else (.writeError put.status put.text, 1, 1)

def submitHandler (form : FormInput) (cfg : GhConfig)
    (getResp : Except String HttpResp) (putResp : Except String HttpResp) :
    Outcome × Nat × Nat :=
  match build_event_payload form.name form.year form.dates form.summary form.deaths
      form.damages form.counties_str form.markers_json form.geojson_text
      form.photos_json form.resources_json with
  | .error msg => (.validationError msg, 0, 0)
  | .ok event_obj =>
    if cfg.token = "" ∨ cfg.repo = "" then (.disabled, 0, 0)
    else
      match getResp with
      | .error e => (.submitFailed ("Submission failed: " ++ e), 1, 0)
      | .ok resp =>
          if resp.status = 200 then
            handlePut event_obj (resp.content.getD []) putResp
          else if resp.status ≠ 404 then (.readError resp.status resp.text, 1, 0)
          else handlePut event_obj [] putResp

/-!
## Dictionary lemmas
-/

section DictLemmas

variable {κ α : Type} [DecidableEq κ]

def dictKeys (m : List (κ × α)) : List κ := m.map Prod.fst

@[simp]
theorem dictFind_nil (k : κ) : dictFind ([] : List (κ × α)) k = none := rfl

theorem dictFind_cons (j : κ) (w : α) (m : List (κ × α)) (k : κ) :
    dictFind ((j, w) :: m) k = if j = k then some w else dictFind m k := by
  by_cases h : j = k <;> simp [dictFind, List.find?_cons, h]

theorem dictFind_eq_none_iff (m : List (κ × α)) (k : κ) :
    dictFind m k = none ↔ k ∉ dictKeys m := by
  induction m with
  | nil => simp [dictKeys]
  | cons p m ih =>
      obtain ⟨j, w⟩ := p
      rw [dictFind_cons]
      by_cases h : j = k
      · subst h
        simp [dictKeys]
      · rw [if_neg h, ih]
        simp only [dictKeys, List.map_cons, List.mem_cons]
        constructor
        · intro hn hor
          rcases hor with he | hm
          · exact h he.symm
          · exact hn hm
        · intro hn hm
          exact hn (Or.inr hm)

theorem dictFind_isSome_iff (m : List (κ × α)) (k : κ) :
    (dictFind m k).isSome = true ↔ k ∈ dictKeys m := by
  cases hf : dictFind m k with
  | none =>
      constructor
      · intro h
        exact absurd h (by simp)
      · intro hm
        exact absurd hm ((dictFind_eq_none_iff m k).1 hf)
  | some v =>
      simp only [Option.isSome_some, true_iff]
      by_contra hk
      have := (dictFind_eq_none_iff m k).2 hk
      rw [hf] at this
      cases this

theorem replaceVal_map_eq_self {m : List (κ × α)} {k : κ} {v : α}
    (h : k ∉ dictKeys m) :
    m.map (fun p => if p.1 = k then (k, v) else p) = m := by
  induction m with
  | nil => rfl
  | cons p m ih =>
      simp only [dictKeys, List.map_cons, List.mem_cons] at h
      push_neg at h
      have h1 : ¬ p.1 = k := fun he => h.1 he.symm
      simp only [List.map_cons, if_neg h1, ih (by simpa [dictKeys] using h.2)]

theorem dictInsert_of_not_mem {m : List (κ × α)} {k : κ} (v : α)
    (h : k ∉ dictKeys m) : dictInsert m k v = m ++ [(k, v)] := by
  have hf : dictFind m k = none := (dictFind_eq_none_iff m k).2 h
  have : (m.find? (fun p => p.1 = k)) = none := by
    cases hfind : m.find? (fun p => p.1 = k) with
    | none => rfl
    | some p => simp [dictFind, hfind] at hf
  simp [dictInsert, this]

theorem dictInsert_cons_of_nodup {j : κ} {w : α} {m : List (κ × α)} {k : κ} (v : α)
    (hnd : (dictKeys ((j, w) :: m)).Nodup) :
    dictInsert ((j, w) :: m) k v =
      if j = k then (k, v) :: m else (j, w) :: dictInsert m k v := by
  simp only [dictKeys, List.map_cons, List.nodup_cons] at hnd
  by_cases h : j = k
  · subst h
    have hkm : j ∉ dictKeys m := by simpa [dictKeys] using hnd.1
    have : ((j, w) :: m).find? (fun p => p.1 = j) = some (j, w) := by
      simp [List.find?_cons]
    simp [dictInsert, this, replaceVal_map_eq_self hkm]
  · simp only [if_neg h]
    by_cases hm : (m.find? (fun p => p.1 = k)).isSome
    · have : (((j, w) :: m).find? (fun p => p.1 = k)).isSome := by
        simp [List.find?_cons, h, hm]
      simp [dictInsert, this, hm, h]
    · have : ¬ (((j, w) :: m).find? (fun p => p.1 = k)).isSome := by
        simp only [List.find?_cons]
        simpa [h] using hm
      simp [dictInsert, this, hm, h]

theorem find_replace_self (m : List (κ × α)) (k : κ) (v : α)
    (h : (m.find? (fun p => p.1 = k)).isSome = true) :
    dictFind (m.map (fun p => if p.1 = k then (k, v) else p)) k = some v := by
  induction m with
  | nil => simp at h
  | cons q m ih =>
      by_cases hj : q.1 = k
      · simp [List.map_cons, if_pos hj, dictFind_cons]
      · rw [List.find?_cons] at h
        simp only [hj, decide_eq_true_eq, if_false] at h
        simp only [List.map_cons, if_neg hj]
        rw [dictFind_cons, if_neg hj]
        exact ih (by simpa [hj] using h)

theorem find_append_self (m : List (κ × α)) (k : κ) (v : α)
    (h : dictFind m k = none) :
    dictFind (m ++ [(k, v)]) k = some v := by
  induction m with
  | nil =>
      rw [List.nil_append, dictFind_cons, if_pos rfl]
  | cons q m ih =>
      obtain ⟨j, w⟩ := q
      rw [dictFind_cons] at h
      by_cases hj : j = k
      · simp [hj] at h
      · rw [List.cons_append, dictFind_cons, if_neg hj]
        exact ih (by simpa [hj] using h)

theorem dictFind_not_isSome_eq_none {m : List (κ × α)} {k : κ}
    (h : ¬ (m.find? (fun p => p.1 = k)).isSome = true) : dictFind m k = none := by
  cases hf : m.find? (fun p => p.1 = k) with
  | none => simp [dictFind, hf]
  | some p =>
      rw [hf] at h
      simp at h

theorem dictFind_dictInsert_self (m : List (κ × α)) (k : κ) (v : α) :
    dictFind (dictInsert m k v) k = some v := by
  by_cases h : (m.find? (fun p => p.1 = k)).isSome
  · simp only [dictInsert, if_pos h]
    exact find_replace_self m k v h
  · simp only [dictInsert, if_neg h]
    exact find_append_self m k v (dictFind_not_isSome_eq_none h)

theorem find_replace_ne (m : List (κ × α)) {j k : κ} (v : α) (h : j ≠ k) :
    dictFind (m.map (fun p => if p.1 = k then (k, v) else p)) j = dictFind m j := by
  induction m with
  | nil => rfl
  | cons q m ih =>
      obtain ⟨i, w⟩ := q
      by_cases hik : i = k
      · simp only [List.map_cons, if_pos (show (i, w).1 = k from hik)]
        rw [dictFind_cons, dictFind_cons, if_neg (fun he : k = j => h he.symm),
            if_neg (fun he : i = j => h (hik ▸ he).symm)]
        exact ih
      · simp only [List.map_cons, if_neg (show ¬ (i, w).1 = k from hik)]
        rw [dictFind_cons, dictFind_cons]
        by_cases hij : i = j
        · simp [hij]
        · rw [if_neg hij, if_neg hij]
          exact ih

theorem find_append_ne (m : List (κ × α)) {j k : κ} (v : α) (h : j ≠ k) :
    dictFind (m ++ [(k, v)]) j = dictFind m j := by
  induction m with
  | nil =>
      rw [List.nil_append, dictFind_cons, if_neg (fun he : k = j => h he.symm)]
  | cons q m ih =>
      obtain ⟨i, w⟩ := q
      rw [List.cons_append, dictFind_cons, dictFind_cons]
      by_cases hij : i = j
      · simp [hij]
      · rw [if_neg hij, if_neg hij]
        exact ih

theorem dictFind_dictInsert_ne (m : List (κ × α)) {j k : κ} (v : α) (h : j ≠ k) :
    dictFind (dictInsert m k v) j = dictFind m j := by
  by_cases hf : (m.find? (fun p => p.1 = k)).isSome
  · simp only [dictInsert, if_pos hf]
    exact find_replace_ne m v h
  · simp only [dictInsert, if_neg hf]
    exact find_append_ne m v h

theorem mem_of_dictFind_eq_some {m : List (κ × α)} {k : κ} {v : α}
    (h : dictFind m k = some v) : (k, v) ∈ m := by
  induction m with
  | nil => cases h
  | cons p m ih =>
      obtain ⟨j, w⟩ := p
      rw [dictFind_cons] at h
      by_cases hj : j = k
      · rw [if_pos hj] at h
        cases h
        subst hj
        exact List.mem_cons_self _ _
      · rw [if_neg hj] at h
        exact List.mem_cons_of_mem _ (ih h)

theorem mem_values_of_dictFind {m : List (κ × α)} {k : κ} {v : α}
    (h : dictFind m k = some v) : v ∈ m.map Prod.snd :=
  List.mem_map.2 ⟨(k, v), mem_of_dictFind_eq_some h, rfl⟩

theorem dictKeys_replace (m : List (κ × α)) (k : κ) (v : α) :
    dictKeys (m.map (fun p => if p.1 = k then (k, v) else p)) = dictKeys m := by
  induction m with
  | nil => rfl
  | cons p m ih =>
      obtain ⟨j, w⟩ := p
      by_cases hj : j = k
      · subst hj
        simp only [dictKeys, List.map_cons] at ih ⊢
        simp only [ih]
        simp
      · simp only [dictKeys, List.map_cons, if_neg hj] at ih ⊢
        rw [ih]

theorem dictKeys_dictInsert_mem (m : List (κ × α)) (k : κ) (v : α)
    (h : k ∈ dictKeys m) : dictKeys (dictInsert m k v) = dictKeys m := by
  have hf : (m.find? (fun p => p.1 = k)).isSome = true := by
    have := (dictFind_isSome_iff m k).2 h
    simpa [dictFind, Option.isSome_map] using this
  simp only [dictInsert, if_pos hf]
  exact dictKeys_replace m k v

theorem dictKeys_nodup_dictInsert (m : List (κ × α)) (k : κ) (v : α)
    (h : (dictKeys m).Nodup) : (dictKeys (dictInsert m k v)).Nodup := by
  by_cases hk : k ∈ dictKeys m
  · rw [dictKeys_dictInsert_mem m k v hk]
    exact h
  · rw [dictInsert_of_not_mem v hk]
    simp only [dictKeys, List.map_append, List.map_cons, List.map_nil]
    rw [List.nodup_append]
    refine ⟨h, List.nodup_singleton _, ?_⟩
    intro a ha hb
    simp only [List.mem_singleton] at hb
    subst hb
    exact hk ha

theorem dictFind_eq_some_of_mem_nodup {m : List (κ × α)} {k : κ} {v : α}
    (hnd : (dictKeys m).Nodup) (hm : (k, v) ∈ m) : dictFind m k = some v := by
  induction m with
  | nil => cases hm
  | cons p m ih =>
      obtain ⟨j, w⟩ := p
      simp only [dictKeys, List.map_cons, List.nodup_cons] at hnd
      rw [dictFind_cons]
      rcases List.mem_cons.1 hm with he | hm2
      · cases he
        rw [if_pos rfl]
      · by_cases hj : j = k
        · subst hj
          exact absurd (List.mem_map_of_mem Prod.fst hm2) hnd.1
        · rw [if_neg hj]
          exact ih (by simpa [dictKeys] using hnd.2) hm2

theorem dictInsert_eq_self_of_mem {m : List (κ × α)} {k : κ} {v : α}
    (hnd : (dictKeys m).Nodup) (hm : (k, v) ∈ m) : dictInsert m k v = m := by
  have hmem : k ∈ dictKeys m := List.mem_map_of_mem Prod.fst hm
  have hf : (m.find? (fun p => p.1 = k)).isSome = true := by
    have := (dictFind_isSome_iff m k).2 hmem
    simpa [dictFind, Option.isSome_map] using this
  simp only [dictInsert, if_pos hf]
  clear hf
  induction m with
  | nil => rfl
  | cons p m ih =>
      obtain ⟨j, w⟩ := p
      simp only [dictKeys, List.map_cons, List.nodup_cons] at hnd
      by_cases hj : j = k
      · subst hj
        have hvm : (j, v) ∉ m := fun hc =>
          hnd.1 (List.mem_map_of_mem Prod.fst hc)
        have he : w = v := by
          rcases List.mem_cons.1 hm with he2 | hm2
          · cases he2
            rfl
          · exact absurd hm2 hvm
        subst he
        simp only [List.map_cons]
        rw [replaceVal_map_eq_self (by simpa [dictKeys] using hnd.1)]
        simp
      · have hm2 : (k, v) ∈ m := by
          rcases List.mem_cons.1 hm with he2 | hm2
          · cases he2
            exact absurd rfl hj
          · exact hm2
        simp only [List.map_cons, if_neg hj]
        rw [ih (by simpa [dictKeys] using hnd.2) hm2
              (List.mem_map_of_mem Prod.fst hm2)]

end DictLemmas

/-!
## Stable sorting by year

`List.insertionSort` models Python's stable `list.sort`: the output of a
stable sort under a total transitive comparison is uniquely determined
(permutation + sortedness + the filter characterization below), so any
stable implementation agrees with CPython's timsort.
-/

theorem insertionSort_yearLE_filter (B : List Rec) (q : ℚ) :
    (List.insertionSort yearLE B).filter (fun r => decide (yearKey r = q)) =
      B.filter (fun r => decide (yearKey r = q)) := by
  set p : Rec → Bool := fun r => decide (yearKey r = q) with hp
  have hmemp : ∀ r ∈ B.filter p, yearKey r = q := by
    intro r hr
    have := List.of_mem_filter hr
    simpa [hp] using this
  have hpair : (B.filter p).Pairwise yearLE := by
    apply List.pairwise_of_forall_mem_list
    intro a ha b hb
    unfold yearLE
    rw [hmemp a ha, hmemp b hb]
  have hsub : List.Sublist (B.filter p) (List.insertionSort yearLE B) :=
    List.sublist_insertionSort hpair (List.filter_sublist B)
  have hself : (B.filter p).filter p = B.filter p :=
    List.filter_eq_self.2 (fun a ha => List.of_mem_filter ha)
  have hsub2 : List.Sublist (B.filter p) ((List.insertionSort yearLE B).filter p) := by
    have := hsub.filter p
    rwa [hself] at this
  have hperm : ((List.insertionSort yearLE B).filter p).Perm (B.filter p) :=
    (List.perm_insertionSort yearLE B).filter p
  exact (List.Sublist.eq_of_length hsub2 hperm.length_eq.symm).symm

/-- C2: loading with no external input (absent or unreadable external file)
returns exactly the builtin list, stably sorted ascending by year: the
result is a permutation of `B`, is sorted by `year`, and records sharing a
year keep their declaration order.  The `yearOk` hypothesis states that
every year field is numeric or absent (otherwise the Python sort would
raise `TypeError` instead of returning). -/
theorem C2_load_no_external_is_stable_year_sort
    (B : List Rec) (ext : ExtInput)
    (hext : ext = ExtInput.absent ∨ ext = ExtInput.unreadable)
    (_hyr : ∀ r ∈ B, yearOk r) :
    List.Perm (load_events B ext) B ∧
    List.Sorted yearLE (load_events B ext) ∧
    ∀ q : ℚ, (load_events B ext).filter (fun r => decide (yearKey r = q)) =
      B.filter (fun r => decide (yearKey r = q)) := by
  have hload : load_events B ext = List.insertionSort yearLE B := by
    rcases hext with h | h <;> rw [h] <;> rfl
  rw [hload]
  exact ⟨List.perm_insertionSort yearLE B, List.sorted_insertionSort yearLE B,
    fun q => insertionSort_yearLE_filter B q⟩

/-- Witness for `C2_load_no_external_is_stable_year_sort` at a concrete
builtin list with a year tie. -/
theorem C2_witness :
    (∀ r ∈ ([[("id", Val.str "a"), ("year", Val.num 2000)],
             [("id", Val.str "b"), ("year", Val.num 1937)],
             [("id", Val.str "c"), ("year", Val.num 2000)]] : List Rec), yearOk r) ∧
    (List.Perm
        (load_events [[("id", Val.str "a"), ("year", Val.num 2000)],
             [("id", Val.str "b"), ("year", Val.num 1937)],
             [("id", Val.str "c"), ("year", Val.num 2000)]] ExtInput.absent)
        [[("id", Val.str "a"), ("year", Val.num 2000)],
             [("id", Val.str "b"), ("year", Val.num 1937)],
             [("id", Val.str "c"), ("year", Val.num 2000)]] ∧
      List.Sorted yearLE
        (load_events [[("id", Val.str "a"), ("year", Val.num 2000)],
             [("id", Val.str "b"), ("year", Val.num 1937)],
             [("id", Val.str "c"), ("year", Val.num 2000)]] ExtInput.absent) ∧
      ∀ q : ℚ,
        (load_events [[("id", Val.str "a"), ("year", Val.num 2000)],
             [("id", Val.str "b"), ("year", Val.num 1937)],
             [("id", Val.str "c"), ("year", Val.num 2000)]] ExtInput.absent).filter
            (fun r => decide (yearKey r = q)) =
          ([[("id", Val.str "a"), ("year", Val.num 2000)],
             [("id", Val.str "b"), ("year", Val.num 1937)],
             [("id", Val.str "c"), ("year", Val.num 2000)]] : List Rec).filter
            (fun r => decide (yearKey r = q))) := by
  have hyr : ∀ r ∈ ([[("id", Val.str "a"), ("year", Val.num 2000)],
             [("id", Val.str "b"), ("year", Val.num 1937)],
             [("id", Val.str "c"), ("year", Val.num 2000)]] : List Rec), yearOk r := by
    intro r hr
    rcases List.mem_cons.1 hr with rfl | hr
    · exact Or.inr ⟨2000, by decide⟩
    rcases List.mem_cons.1 hr with rfl | hr
    · exact Or.inr ⟨1937, by decide⟩
    rcases List.mem_cons.1 hr with rfl | hr
    · exact Or.inr ⟨2000, by decide⟩
    · cases hr
  exact ⟨hyr, C2_load_no_external_is_stable_year_sort _ _ (Or.inl rfl) hyr⟩

/-!
## Load-time merge lemmas (for C1)
-/

/-- The step of the `{e["id"]: e for e in events}` comprehension. -/
def byIdStep (m : List (Val × Rec)) (e : Rec) : Option (List (Val × Rec)) :=
  match alistLookup e "id" with
  | some i => some (dictInsert m i e)
  | none => none

theorem buildById_eq_foldlM (events : List Rec) :
    buildById events = events.foldlM byIdStep [] := rfl

theorem byId_fold_preserves (B : List Rec) (i : Val)
    (hall : ∀ rc ∈ B, (alistLookup rc "id").isSome = true)
    (hni : ∀ rc ∈ B, alistLookup rc "id" ≠ some i) :
    ∀ m : List (Val × Rec), ∃ m', B.foldlM byIdStep m = some m' ∧
      dictFind m' i = dictFind m i := by
  induction B with
  | nil => exact fun m => ⟨m, rfl, rfl⟩
  | cons rc B ih =>
      intro m
      obtain ⟨j, hj⟩ := Option.isSome_iff_exists.1 (hall rc (List.mem_cons_self _ _))
      have hji : j ≠ i := by
        intro he
        exact hni rc (List.mem_cons_self _ _) (he ▸ hj)
      obtain ⟨m', hm', hfind⟩ := ih (fun r hr => hall r (List.mem_cons_of_mem _ hr))
        (fun r hr => hni r (List.mem_cons_of_mem _ hr)) (dictInsert m j rc)
      refine ⟨m', ?_, ?_⟩
      · simpa [List.foldlM, byIdStep, hj] using hm'
      · rw [hfind, dictFind_dictInsert_ne m rc hji.symm]

theorem byId_fold_find (B1 : List Rec) (b : Rec) (B2 : List Rec) (i : Val)
    (hall : ∀ rc ∈ B1 ++ b :: B2, (alistLookup rc "id").isSome = true)
    (hbid : alistLookup b "id" = some i)
    (hB2 : ∀ rc ∈ B2, alistLookup rc "id" ≠ some i) :
    ∀ m : List (Val × Rec), ∃ m', (B1 ++ b :: B2).foldlM byIdStep m = some m' ∧
      dictFind m' i = some b := by
  induction B1 with
  | nil =>
      intro m
      obtain ⟨m', hm', hfind⟩ := byId_fold_preserves B2 i
        (fun r hr => hall r (List.mem_cons_of_mem _ hr))
        hB2 (dictInsert m i b)
      refine ⟨m', ?_, ?_⟩
      · simpa [List.foldlM, byIdStep, hbid] using hm'
      · rw [hfind, dictFind_dictInsert_self]
  | cons rc B1 ih =>
      intro m
      obtain ⟨j, hj⟩ := Option.isSome_iff_exists.1 (hall rc (List.mem_cons_self _ _))
      obtain ⟨m', hm', hfind⟩ := ih (fun r hr => hall r (List.mem_cons_of_mem _ hr))
        (dictInsert m j rc)
      refine ⟨m', ?_, hfind⟩
      · simpa [List.foldlM, byIdStep, hj] using hm'

/-- Skipped or other-id entries of the external list do not change the
binding at `i`. -/
theorem mergeExtra_preserves (E : List Val) (i : Val)
    (hE : ∀ e ∈ E, ∀ em : List (String × Val), e = Val.map em →
      alistLookup em "id" ≠ some i) :
    ∀ m : List (Val × Rec), dictFind (mergeExtra m E) i = dictFind m i := by
  induction E with
  | nil => exact fun m => rfl
  | cons e E ih =>
      intro m
      have htail : ∀ e2 ∈ E, ∀ em : List (String × Val), e2 = Val.map em →
          alistLookup em "id" ≠ some i :=
        fun e2 he2 => hE e2 (List.mem_cons_of_mem _ he2)
      have hcons : mergeExtra m (e :: E) = mergeExtra (mergeStep m e) E := rfl
      rw [hcons]
      cases e with
      | map em =>
          cases hid : alistLookup em "id" with
          | none =>
              rw [show mergeStep m (Val.map em) = m by simp [mergeStep, hid]]
              exact ih htail m
          | some j =>
              have hji : j ≠ i := by
                intro he
                exact hE (Val.map em) (List.mem_cons_self _ _) em rfl (he ▸ hid)
              rw [show mergeStep m (Val.map em) =
                    dictInsert m j (dictMerge ((dictFind m j).getD []) em) by
                  simp [mergeStep, hid]]
              rw [ih htail _, dictFind_dictInsert_ne _ _ hji.symm]
      | null => exact ih htail m
      | bool b => exact ih htail m
      | num q => exact ih htail m
      | str s => exact ih htail m
      | list l => exact ih htail m

/-- Processing the matching external entry merges it over the current
binding. -/
theorem mergeExtra_hit (E1 : List Val) (em : List (String × Val)) (E2 : List Val)
    (i : Val) (b : Rec)
    (hemid : alistLookup em "id" = some i)
    (hE1 : ∀ e ∈ E1, ∀ m2 : List (String × Val), e = Val.map m2 →
      alistLookup m2 "id" ≠ some i)
    (hE2 : ∀ e ∈ E2, ∀ m2 : List (String × Val), e = Val.map m2 →
      alistLookup m2 "id" ≠ some i) :
    ∀ m : List (Val × Rec), dictFind m i = some b →
      dictFind (mergeExtra m (E1 ++ Val.map em :: E2)) i = some (dictMerge b em) := by
  intro m hmb
  have hsplit : mergeExtra m (E1 ++ Val.map em :: E2) =
      mergeExtra (mergeStep (mergeExtra m E1) (Val.map em)) E2 := by
    unfold mergeExtra
    rw [List.foldl_append, List.foldl_cons]
  rw [hsplit]
  have h1 : dictFind (mergeExtra m E1) i = some b := by
    rw [mergeExtra_preserves E1 i hE1 m]
    exact hmb
  have hstep : mergeStep (mergeExtra m E1) (Val.map em) =
      dictInsert (mergeExtra m E1) i (dictMerge b em) := by
    simp [mergeStep, hemid, h1]
  rw [hstep, mergeExtra_preserves E2 i hE2, dictFind_dictInsert_self]

/-- Shallow-merge lookup: a key literally present in the override `em` takes
`em`'s (first) value, any other key keeps `a`'s value.  (`em` models a
Python dict, so its keys are distinct.) -/
theorem dictMerge_lookup :
    ∀ em : List (String × Val), (dictKeys em).Nodup →
      ∀ (a : List (String × Val)) (k : String),
        alistLookup (dictMerge a em) k = (alistLookup em k).or (alistLookup a k)
  | [], _, a, k => by
      simp only [dictMerge, List.foldl_nil, alistLookup, dictFind_nil, Option.or]
  | (k0, v0) :: em, hnd, a, k => by
      simp only [dictKeys, List.map_cons, List.nodup_cons] at hnd
      have hk0 : k0 ∉ dictKeys em := by simpa [dictKeys] using hnd.1
      have hcons : dictMerge a ((k0, v0) :: em) = dictMerge (dictInsert a k0 v0) em := rfl
      rw [hcons, dictMerge_lookup em (by simpa [dictKeys] using hnd.2) (dictInsert a k0 v0) k]
      simp only [alistLookup]
      by_cases hkk : k0 = k
      · subst hkk
        rw [(dictFind_eq_none_iff em k0).2 hk0, dictFind_cons, if_pos rfl,
            dictFind_dictInsert_self]
        rfl
      · rw [dictFind_cons, if_neg hkk,
            dictFind_dictInsert_ne a v0 (fun he => hkk he.symm)]

/-- C1: when the external sequence contains a mapping `em` whose `id`
matches the builtin record `b` (and no other entry carries that id), the
loaded store contains the shallow merge `{**b, **em}`, whose fields are
exactly `b`'s overwritten key-by-key by the keys literally present in `em`
(keys absent from `em` keep `b`'s value). -/
theorem C1_external_override_shallow_merge
    (B1 B2 : List Rec) (b : Rec) (E1 E2 : List Val) (em : List (String × Val)) (i : Val)
    (hall : ∀ rc ∈ B1 ++ b :: B2, (alistLookup rc "id").isSome = true)
    (hbid : alistLookup b "id" = some i)
    (hB2 : ∀ rc ∈ B2, alistLookup rc "id" ≠ some i)
    (hemid : alistLookup em "id" = some i)
    (hE1 : ∀ e ∈ E1, ∀ m2 : List (String × Val), e = Val.map m2 →
      alistLookup m2 "id" ≠ some i)
    (hE2 : ∀ e ∈ E2, ∀ m2 : List (String × Val), e = Val.map m2 →
      alistLookup m2 "id" ≠ some i)
    (hnd : (dictKeys em).Nodup) :
    dictMerge b em ∈
      load_events (B1 ++ b :: B2) (ExtInput.parsed (Val.list (E1 ++ Val.map em :: E2))) ∧
    ∀ k : String,
      alistLookup (dictMerge b em) k = (alistLookup em k).or (alistLookup b k) := by
  obtain ⟨m0, hm0, hfind0⟩ := byId_fold_find B1 b B2 i hall hbid hB2 []
  have hbuild : buildById (B1 ++ b :: B2) = some m0 := by
    rw [buildById_eq_foldlM]
    exact hm0
  have hmerge : dictFind (mergeExtra m0 (E1 ++ Val.map em :: E2)) i =
      some (dictMerge b em) :=
    mergeExtra_hit E1 em E2 i b hemid hE1 hE2 m0 hfind0
  have hfal : pyFalsy (Val.list (E1 ++ Val.map em :: E2)) = false := by
    simp [pyFalsy]
  have hload : load_events (B1 ++ b :: B2)
      (ExtInput.parsed (Val.list (E1 ++ Val.map em :: E2))) =
      List.insertionSort yearLE
        ((mergeExtra m0 (E1 ++ Val.map em :: E2)).map (fun p => p.2)) := by
    simp only [load_events, hfal, Bool.false_eq_true, if_false, hbuild]
  constructor
  · rw [hload, List.mem_insertionSort]
    exact mem_values_of_dictFind hmerge
  · exact fun k => dictMerge_lookup em hnd b k

/-- Witness for `C1_external_override_shallow_merge`: one builtin record,
one external override sharing its id. -/
theorem C1_witness :
    (∀ rc ∈ ([] : List Rec) ++ ([("id", Val.str "x"), ("year", Val.num 1937),
        ("deaths", Val.num 5)] : Rec) :: ([] : List Rec),
      (alistLookup rc "id").isSome = true) ∧
    alistLookup [("id", Val.str "x"), ("year", Val.num 1937), ("deaths", Val.num 5)]
        "id" = some (Val.str "x") ∧
    alistLookup [("id", Val.str "x"), ("deaths", Val.num 10)] "id" = some (Val.str "x") ∧
    (dictKeys [("id", Val.str "x"), ("deaths", Val.num 10)]).Nodup ∧
    (dictMerge [("id", Val.str "x"), ("year", Val.num 1937), ("deaths", Val.num 5)]
        [("id", Val.str "x"), ("deaths", Val.num 10)] ∈
      load_events
        (([] : List Rec) ++ ([("id", Val.str "x"), ("year", Val.num 1937),
            ("deaths", Val.num 5)] : Rec) :: ([] : List Rec))
        (ExtInput.parsed (Val.list (([] : List Val) ++
          Val.map [("id", Val.str "x"), ("deaths", Val.num 10)] :: ([] : List Val)))) ∧
      ∀ k : String,
        alistLookup (dictMerge [("id", Val.str "x"), ("year", Val.num 1937),
            ("deaths", Val.num 5)] [("id", Val.str "x"), ("deaths", Val.num 10)]) k =
          (alistLookup [("id", Val.str "x"), ("deaths", Val.num 10)] k).or
            (alistLookup [("id", Val.str "x"), ("year", Val.num 1937),
              ("deaths", Val.num 5)] k)) := by
  refine ⟨by decide, by decide, by decide, by decide, ?_⟩
  exact C1_external_override_shallow_merge [] [] _ [] [] _ (Val.str "x")
    (by decide) (by decide) (by intro rc h; cases h) (by decide)
    (by intro e h; cases h) (by intro e h; cases h) (by decide)

/-- C3: the identifier normalizer is deterministic and pure (same year and
name always produce the same identifier), and the identifier for year 1937
and name "Ohio River Flood!!" is "1937_ohio_river_flood". -/
theorem C3_make_id_deterministic_and_example :
    (∀ (y : Int) (n : String), make_id y n = make_id y n) ∧
    make_id 1937 "Ohio River Flood!!" = "1937_ohio_river_flood" :=
  ⟨fun _ _ => rfl, by decide⟩

/-- C4: `validate_geojson` is total over arbitrary text (always returns the
parsed mapping or the `None` sentinel), rejects "\x7bnot json",
`\x7b"type":"Feature"\x7d` and
`\x7b"type":"FeatureCollection","features":"x"\x7d`, and returns the parsed
structure unchanged for `\x7b"type":"FeatureCollection","features":[]\x7d`. -/
theorem C4_validate_geojson_total_and_examples :
    (∀ txt : String, validate_geojson txt = none ∨
      ∃ gj, validate_geojson txt = some gj) ∧
    validate_geojson "\x7bnot json" = none ∧
    validate_geojson "\x7b\"type\":\"Feature\"\x7d" = none ∧
    validate_geojson "\x7b\"type\":\"FeatureCollection\",\"features\":\"x\"\x7d" = none ∧
    validate_geojson "\x7b\"type\":\"FeatureCollection\",\"features\":[]\x7d" =
      some [("type", Val.str "FeatureCollection"), ("features", Val.list [])] := by
  refine ⟨?_, by decide, by decide, by decide, by decide⟩
  intro txt
  cases h : validate_geojson txt with
  | none => exact Or.inl rfl
  | some gj => exact Or.inr ⟨gj, rfl⟩

/-!
## Inversion of `build_event_payload`
-/

theorem build_event_payload_ok (name : String) (year : Int) (dates summary : String)
    (deaths : Int) (damages : ℚ)
    (counties_str markers_json geojson_text photos_json resources_json : String) (r : Rec)
    (h : build_event_payload name year dates summary deaths damages counties_str
      markers_json geojson_text photos_json resources_json = Except.ok r) :
    ∃ gj : List (String × Val), validate_geojson geojson_text = some gj ∧
      pyFalsy (Val.map gj) = false ∧
      r = [("id", Val.str (make_id year name)),
           ("name", Val.str name),
           ("year", Val.num (year : ℚ)),
           ("dates", Val.str dates),
           ("summary", Val.str summary),
           ("deaths", Val.num (deaths : ℚ)),
           ("damages_usd_bil", if damages = 0 then Val.null else Val.num damages),
           ("counties", Val.list
             ((if counties_str = "" then []
               else ((counties_str.split (fun c => c = ',')).map
                 (fun c => String.mk (stripEnds pySpace c.data))).filter
                   (fun c => c ≠ "")).map Val.str)),
           ("geojson", Val.map gj),
           ("markers", Val.list (parse_optional_json markers_json [])),
           ("river_crests", Val.list []),
           ("photos", Val.list (parse_optional_json photos_json [])),
           ("resources", Val.list (parse_optional_json resources_json []))] := by
  by_cases hreq : name = "" ∨ summary = "" ∨ geojson_text = ""
  · unfold build_event_payload at h
    rw [if_pos hreq] at h
    simp at h
  · unfold build_event_payload at h
    rw [if_neg hreq] at h
    cases hv : validate_geojson geojson_text with
    | none =>
        rw [hv] at h
        simp at h
    | some gj =>
        rw [hv] at h
        by_cases hf : pyFalsy (Val.map gj) = true
        · simp only [hf, if_true] at h
          simp at h
        · simp only [Bool.not_eq_true] at hf
          simp only [hf, Bool.false_eq_true, if_false] at h
          refine ⟨gj, rfl, hf, ?_⟩
          exact (Except.ok.inj h).symm

/-- C10: a submitted damages value of 0 is persisted as the `None` sentinel
(absent / "unknown") rather than as the number 0; only non-zero (in the
form, strictly positive) damages values are stored as numbers. -/
theorem C10_zero_damages_stored_as_none
    (name : String) (year : Int) (dates summary : String) (deaths : Int) (damages : ℚ)
    (counties_str markers_json geojson_text photos_json resources_json : String) (r : Rec)
    (hok : build_event_payload name year dates summary deaths damages counties_str
      markers_json geojson_text photos_json resources_json = Except.ok r) :
    (damages = 0 → alistLookup r "damages_usd_bil" = some Val.null) ∧
    (damages ≠ 0 → alistLookup r "damages_usd_bil" = some (Val.num damages)) := by
  obtain ⟨gj, -, -, hr⟩ := build_event_payload_ok name year dates summary deaths damages
    counties_str markers_json geojson_text photos_json resources_json r hok
  subst hr
  constructor
  · intro h0
    simp [alistLookup, dictFind_cons, h0]
  · intro hne
    simp [alistLookup, dictFind_cons, hne]

/-!
## C5: geojson validation at submission
-/

instance {ε α : Type} [DecidableEq ε] [DecidableEq α] : DecidableEq (Except ε α) :=
  fun a b =>
  match a, b with
  | .error e, .error f =>
      if h : e = f then .isTrue (congrArg Except.error h)
      else .isFalse (fun hh => h (Except.error.inj hh))
  | .ok x, .ok y =>
      if h : x = y then .isTrue (congrArg Except.ok h)
      else .isFalse (fun hh => h (Except.ok.inj hh))
  | .error _, .ok _ => .isFalse (fun hh => Except.noConfusion hh)
  | .ok _, .error _ => .isFalse (fun hh => Except.noConfusion hh)

theorem validate_geojson_some (txt : String) (gj : List (String × Val))
    (h : validate_geojson txt = some gj) :
    alistLookup gj "type" = some (Val.str "FeatureCollection") ∧
    ∃ fs : List Val, alistLookup gj "features" = some (Val.list fs) := by
  unfold validate_geojson at h
  cases hj : json_loads txt with
  | none =>
      rw [hj] at h
      simp at h
  | some v =>
      rw [hj] at h
      cases v with
      | map gj2 =>
          by_cases ht : alistLookup gj2 "type" = some (Val.str "FeatureCollection")
          · simp only [ht, if_true] at h
            cases hf : alistLookup gj2 "features" with
            | none =>
                rw [hf] at h
                simp at h
            | some fv =>
                rw [hf] at h
                cases fv with
                | list fs =>
                    simp only [Option.some.injEq] at h
                    subst h
                    exact ⟨ht, fs, hf⟩
                | null => simp at h
                | bool b => simp at h
                | num q => simp at h
                | str s => simp at h
                | map m2 => simp at h
          · simp only [ht, if_false] at h
            simp at h
      | null => simp at h
      | bool b => simp at h
      | num q => simp at h
      | str s => simp at h
      | list l => simp at h

/-- The geojson shape that the submission path actually guarantees for an
accepted record: a `FeatureCollection` whose `features` is a list — possibly
empty. -/
def acceptedGeojsonShape (r : Rec) : Bool :=
  match alistLookup r "geojson" with
  | some (Val.map gj) =>
      (match alistLookup gj "type" with
       | some (Val.str t) => t = "FeatureCollection"
       | _ => false) &&
      (match alistLookup gj "features" with
       | some (Val.list _) => true
       | _ => false)
  | _ => false

/-- C5 counterexample: the concrete submission whose geojson is a
`FeatureCollection` with an empty `features` list is accepted by
`build_event_payload` (the claim says it must be rejected), the accepted
record's geojson has zero features, and the submission handler persists it
(successful write, one PUT issued). -/
theorem C5_counterexample :
    build_event_payload "x" 2000 "" "y" 0 0 "" ""
        "\x7b\"type\":\"FeatureCollection\",\"features\":[]\x7d" "" "" =
      Except.ok
        [("id", Val.str "2000_x"), ("name", Val.str "x"), ("year", Val.num 2000),
         ("dates", Val.str ""), ("summary", Val.str "y"), ("deaths", Val.num 0),
         ("damages_usd_bil", Val.null), ("counties", Val.list []),
         ("geojson", Val.map [("type", Val.str "FeatureCollection"),
           ("features", Val.list [])]),
         ("markers", Val.list []), ("river_crests", Val.list []),
         ("photos", Val.list []), ("resources", Val.list [])] ∧
    alistLookup
        [("id", Val.str "2000_x"), ("name", Val.str "x"), ("year", Val.num 2000),
         ("dates", Val.str ""), ("summary", Val.str "y"), ("deaths", Val.num 0),
         ("damages_usd_bil", Val.null), ("counties", Val.list []),
         ("geojson", Val.map [("type", Val.str "FeatureCollection"),
           ("features", Val.list [])]),
         ("markers", Val.list []), ("river_crests", Val.list []),
         ("photos", Val.list []), ("resources", Val.list [])] "geojson" =
      some (Val.map [("type", Val.str "FeatureCollection"), ("features", Val.list [])]) ∧
    submitHandler
        ⟨"x", 2000, "", 0, 0, "", "y", "",
          "\x7b\"type\":\"FeatureCollection\",\"features\":[]\x7d", "", ""⟩
        ⟨"tok", "owner/repo", "main", "data/events.yaml"⟩
        (Except.ok ⟨404, none, none, "Not Found"⟩)
        (Except.ok ⟨201, none, none, "created"⟩) =
      (Outcome.success, 1, 1) := by
  refine ⟨by decide, by decide, by decide⟩

/-- C5 (amended): the submission path requires the geojson text to parse to
a `FeatureCollection` whose `features` is a list — possibly empty, not
necessarily non-empty.  A candidate failing that check (with the required
fields present) is rejected at submission time with no store mutation and no
network call, and every accepted record's geojson is a `FeatureCollection`
whose `features` is a list. -/
theorem C5_amended_features_list_possibly_empty
    (form : FormInput) (cfg : GhConfig) (getResp putResp : Except String HttpResp) :
    (form.name ≠ "" → form.summary ≠ "" → form.geojson_text ≠ "" →
      validate_geojson form.geojson_text = none →
      submitHandler form cfg getResp putResp =
        (Outcome.validationError
          "GeoJSON must be a valid **FeatureCollection** with a features list.", 0, 0)) ∧
    (∀ r : Rec,
      build_event_payload form.name form.year form.dates form.summary form.deaths
        form.damages form.counties_str form.markers_json form.geojson_text
        form.photos_json form.resources_json = Except.ok r →
      acceptedGeojsonShape r = true) := by
  constructor
  · intro hn hs hg hv
    have hreq : ¬ (form.name = "" ∨ form.summary = "" ∨ form.geojson_text = "") := by
      intro hor
      rcases hor with h | h | h
      · exact hn h
      · exact hs h
      · exact hg h
    have hb : build_event_payload form.name form.year form.dates form.summary form.deaths
        form.damages form.counties_str form.markers_json form.geojson_text
        form.photos_json form.resources_json =
        Except.error "GeoJSON must be a valid **FeatureCollection** with a features list." := by
      unfold build_event_payload
      rw [if_neg hreq, hv]
    unfold submitHandler
    rw [hb]
  · intro r hok
    obtain ⟨gj, hv, -, hr⟩ := build_event_payload_ok form.name form.year form.dates
      form.summary form.deaths form.damages form.counties_str form.markers_json
      form.geojson_text form.photos_json form.resources_json r hok
    obtain ⟨ht, fs, hf⟩ := validate_geojson_some form.geojson_text gj hv
    subst hr
    have hgeo : alistLookup
        [("id", Val.str (make_id form.year form.name)),
         ("name", Val.str form.name),
         ("year", Val.num (form.year : ℚ)),
         ("dates", Val.str form.dates),
         ("summary", Val.str form.summary),
         ("deaths", Val.num (form.deaths : ℚ)),
         ("damages_usd_bil", if form.damages = 0 then Val.null else Val.num form.damages),
         ("counties", Val.list
           ((if form.counties_str = "" then []
             else ((form.counties_str.split (fun c => c = ',')).map
               (fun c => String.mk (stripEnds pySpace c.data))).filter
                 (fun c => c ≠ "")).map Val.str)),
         ("geojson", Val.map gj),
         ("markers", Val.list (parse_optional_json form.markers_json [])),
         ("river_crests", Val.list []),
         ("photos", Val.list (parse_optional_json form.photos_json [])),
         ("resources", Val.list (parse_optional_json form.resources_json []))]
        "geojson" = some (Val.map gj) := by
      simp [alistLookup, dictFind_cons]
    unfold acceptedGeojsonShape
    simp only [hgeo, ht, hf]
    simp

/-- Witness for `C5_amended_features_list_possibly_empty` at a concrete
rejected input and a concrete accepted input. -/
theorem C5_amended_witness :
    (("x" : String) ≠ "" ∧ ("y" : String) ≠ "" ∧ ("nope" : String) ≠ "" ∧
      validate_geojson "nope" = none) ∧
    submitHandler ⟨"x", 2000, "", 0, 0, "", "y", "", "nope", "", ""⟩
        ⟨"tok", "owner/repo", "main", "data/events.yaml"⟩
        (Except.ok ⟨404, none, none, ""⟩) (Except.ok ⟨201, none, none, ""⟩) =
      (Outcome.validationError
        "GeoJSON must be a valid **FeatureCollection** with a features list.", 0, 0) ∧
    (build_event_payload "x" 2000 "" "y" 0 0 "" ""
        "\x7b\"type\":\"FeatureCollection\",\"features\":[]\x7d" "" "" =
      Except.ok
        [("id", Val.str "2000_x"), ("name", Val.str "x"), ("year", Val.num 2000),
         ("dates", Val.str ""), ("summary", Val.str "y"), ("deaths", Val.num 0),
         ("damages_usd_bil", Val.null), ("counties", Val.list []),
         ("geojson", Val.map [("type", Val.str "FeatureCollection"),
           ("features", Val.list [])]),
         ("markers", Val.list []), ("river_crests", Val.list []),
         ("photos", Val.list []), ("resources", Val.list [])] ∧
      acceptedGeojsonShape
        [("id", Val.str "2000_x"), ("name", Val.str "x"), ("year", Val.num 2000),
         ("dates", Val.str ""), ("summary", Val.str "y"), ("deaths", Val.num 0),
         ("damages_usd_bil", Val.null), ("counties", Val.list []),
         ("geojson", Val.map [("type", Val.str "FeatureCollection"),
           ("features", Val.list [])]),
         ("markers", Val.list []), ("river_crests", Val.list []),
         ("photos", Val.list []), ("resources", Val.list [])] = true) := by
  refine ⟨⟨by decide, by decide, by decide, by decide⟩, ?_, by decide, ?_⟩
  · exact (C5_amended_features_list_possibly_empty
      ⟨"x", 2000, "", 0, 0, "", "y", "", "nope", "", ""⟩
      ⟨"tok", "owner/repo", "main", "data/events.yaml"⟩
      (Except.ok ⟨404, none, none, ""⟩) (Except.ok ⟨201, none, none, ""⟩)).1
      (by decide) (by decide) (by decide) (by decide)
  · exact (C5_amended_features_list_possibly_empty
      ⟨"x", 2000, "", 0, 0, "", "y", "",
        "\x7b\"type\":\"FeatureCollection\",\"features\":[]\x7d", "", ""⟩
      ⟨"tok", "owner/repo", "main", "data/events.yaml"⟩
      (Except.ok ⟨404, none, none, ""⟩) (Except.ok ⟨201, none, none, ""⟩)).2
      _ (by decide)

/-!
## C6: bounds of empty geometry
-/

/-- The caller's guard (app.py lines 245–246): `b = bounds_from_geom(...)`;
`if b: m.fit_bounds(b, padding=(10,10))`.  The returned value is always a
two-element list when no exception escapes, so the guard passes. -/
def fit_bounds_attempted (coords : Coord) : Bool :=
  match bounds_from_geom coords with
  | some b => !b.isEmpty
  | none => false

mutual

/-- The input consists of nested arrays only — zero coordinate pairs. -/
def numFree : Coord → Bool
  | .num _ => false
  | .arr l => numFreeList l

def numFreeList : List Coord → Bool
  | [] => true
  | c :: cs => numFree c && numFreeList cs

end

mutual

theorem walk_numFree : ∀ c : Coord, numFree c = true → ∀ acc, walk c acc = some acc
  | .num _, h => by simp [numFree] at h
  | .arr [], _ => fun _ => rfl
  | .arr (Coord.num lon :: rest), h => by
      simp [numFree, numFreeList, numFree] at h
  | .arr (Coord.arr a :: rest), h => fun acc => by
      have h2 : numFreeList (Coord.arr a :: rest) = true := by
        simpa [numFree] using h
      exact walkAll_numFree (Coord.arr a :: rest) h2 acc

theorem walkAll_numFree : ∀ l : List Coord, numFreeList l = true →
    ∀ acc, walkAll l acc = some acc
  | [], _ => fun _ => rfl
  | c :: cs, h => fun acc => by
      simp only [numFreeList, Bool.and_eq_true] at h
      rw [walkAll, walk_numFree c h.1 acc]
      exact walkAll_numFree cs h.2 acc

end

/-- C6 counterexample: on an input with zero coordinate pairs the helper
does not return an undefined/falsy sentinel — it returns the degenerate
initial box `[[90, 180], [-90, -180]]`, a truthy two-element list, so the
caller's `if b:` guard passes and a viewport change IS attempted. -/
theorem C6_counterexample :
    bounds_from_geom (Coord.arr []) = some [[90, 180], [-90, -180]] ∧
    fit_bounds_attempted (Coord.arr []) = true := by
  refine ⟨by decide, by decide⟩

/-- C6 (amended): for every input of nested arrays with zero coordinate
pairs, `bounds_from_geom` does not raise and returns the initial accumulator
box `[[90, 180], [-90, -180]]` (a truthy value — the caller still attempts
`fit_bounds`); for inputs with coordinate pairs it returns the running
min/max of latitude and longitude, e.g. the single ring
`[[-89.0,37.2],[-88.3,37.1],[-87.7,37.3]]` yields
`[[37.1, -89.0], [37.3, -87.7]]`. -/
theorem C6_amended_degenerate_box_on_empty (c : Coord) (h : numFree c = true) :
    bounds_from_geom c = some [[90, 180], [-90, -180]] ∧
    fit_bounds_attempted c = true ∧
    bounds_from_geom (Coord.arr [Coord.arr [Coord.num (-89), Coord.num (37.2 : ℚ)],
        Coord.arr [Coord.num (-88.3 : ℚ), Coord.num (37.1 : ℚ)],
        Coord.arr [Coord.num (-87.7 : ℚ), Coord.num (37.3 : ℚ)]]) =
      some [[(37.1 : ℚ), -89], [(37.3 : ℚ), (-87.7 : ℚ)]] := by
  have hb : bounds_from_geom c = some [[90, 180], [-90, -180]] := by
    unfold bounds_from_geom
    rw [walk_numFree c h ⟨90, 180, -90, -180⟩]
  refine ⟨hb, ?_, ?_⟩
  · unfold fit_bounds_attempted
    rw [hb]
    simp
  · norm_num [bounds_from_geom, walk, walkAll, pyMin, pyMax]

/-- Witness for `C6_amended_degenerate_box_on_empty` at nested empty
arrays. -/
theorem C6_amended_witness :
    numFree (Coord.arr [Coord.arr [], Coord.arr [Coord.arr []]]) = true ∧
    (bounds_from_geom (Coord.arr [Coord.arr [], Coord.arr [Coord.arr []]]) =
        some [[90, 180], [-90, -180]] ∧
      fit_bounds_attempted (Coord.arr [Coord.arr [], Coord.arr [Coord.arr []]]) = true ∧
      bounds_from_geom (Coord.arr [Coord.arr [Coord.num (-89), Coord.num (37.2 : ℚ)],
          Coord.arr [Coord.num (-88.3 : ℚ), Coord.num (37.1 : ℚ)],
          Coord.arr [Coord.num (-87.7 : ℚ), Coord.num (37.3 : ℚ)]]) =
        some [[(37.1 : ℚ), -89], [(37.3 : ℚ), (-87.7 : ℚ)]]) :=
  ⟨by decide, C6_amended_degenerate_box_on_empty _ (by decide)⟩

/-!
## C7 and C8: the submission handler
-/

/-- C7: a submission with a missing/empty required field (name, summary, or
geojson text) is rejected with the caller-visible validation message; no
store mutation happens and no remote request (GET or PUT) is issued. -/
theorem C7_missing_required_rejected_no_network
    (form : FormInput) (cfg : GhConfig) (getResp putResp : Except String HttpResp)
    (hmiss : form.name = "" ∨ form.summary = "" ∨ form.geojson_text = "") :
    submitHandler form cfg getResp putResp =
      (Outcome.validationError
        "Please provide at least **Event name**, **Summary**, and **GeoJSON**.", 0, 0) := by
  have hb : build_event_payload form.name form.year form.dates form.summary form.deaths
      form.damages form.counties_str form.markers_json form.geojson_text
      form.photos_json form.resources_json =
      Except.error "Please provide at least **Event name**, **Summary**, and **GeoJSON**." := by
    unfold build_event_payload
    rw [if_pos hmiss]
  unfold submitHandler
  rw [hb]

/-- Witness for `C7_missing_required_rejected_no_network`: the spec scenario
of an empty summary. -/
theorem C7_witness :
    (("x" : String) = "" ∨ ("" : String) = "" ∨
      ("\x7b\"type\":\"FeatureCollection\",\"features\":[]\x7d" : String) = "") ∧
    submitHandler
        ⟨"x", 2000, "", 0, 0, "", "", "",
          "\x7b\"type\":\"FeatureCollection\",\"features\":[]\x7d", "", ""⟩
        ⟨"tok", "owner/repo", "main", "data/events.yaml"⟩
        (Except.ok ⟨404, none, none, ""⟩) (Except.ok ⟨201, none, none, ""⟩) =
      (Outcome.validationError
        "Please provide at least **Event name**, **Summary**, and **GeoJSON**.", 0, 0) :=
  ⟨Or.inr (Or.inl rfl),
    C7_missing_required_rejected_no_network
      ⟨"x", 2000, "", 0, 0, "", "", "",
        "\x7b\"type\":\"FeatureCollection\",\"features\":[]\x7d", "", ""⟩
      ⟨"tok", "owner/repo", "main", "data/events.yaml"⟩
      (Except.ok ⟨404, none, none, ""⟩) (Except.ok ⟨201, none, none, ""⟩)
      (Or.inr (Or.inl rfl))⟩

theorem build_ok_has_id (name : String) (year : Int) (dates summary : String)
    (deaths : Int) (damages : ℚ)
    (counties_str markers_json geojson_text photos_json resources_json : String) (r : Rec)
    (hok : build_event_payload name year dates summary deaths damages counties_str
      markers_json geojson_text photos_json resources_json = Except.ok r) :
    alistLookup r "id" = some (Val.str (make_id year name)) := by
  obtain ⟨gj, -, -, hr⟩ := build_event_payload_ok name year dates summary deaths damages
    counties_str markers_json geojson_text photos_json resources_json r hok
  subst hr
  simp [alistLookup, dictFind_cons]

theorem handlePut_puts_le_one (e : Rec) (ex : List Val) (p : Except String HttpResp) :
    (handlePut e ex p).2.2 ≤ 1 := by
  unfold handlePut
  cases append_event_to_yaml ex e with
  | none => simp
  | some l =>
      cases p with
      | error e2 => simp
      | ok put =>
          by_cases hs : put.status = 200 ∨ put.status = 201
          · simp [hs]
          · simp [hs]

theorem submitHandler_puts_le_one (f : FormInput) (c : GhConfig)
    (g p : Except String HttpResp) : (submitHandler f c g p).2.2 ≤ 1 := by
  unfold submitHandler
  cases build_event_payload f.name f.year f.dates f.summary f.deaths f.damages
      f.counties_str f.markers_json f.geojson_text f.photos_json f.resources_json with
  | error msg => simp
  | ok r =>
      by_cases hc : c.token = "" ∨ c.repo = ""
      · simp [hc]
      · simp only [if_neg hc]
        cases g with
        | error e => simp
        | ok resp =>
            by_cases h200 : resp.status = 200
            · simp only [if_pos h200]
              exact handlePut_puts_le_one r (resp.content.getD []) p
            · simp only [if_neg h200]
              by_cases h404 : resp.status = 404
              · rw [if_neg (by simpa using h404)]
                exact handlePut_puts_le_one r [] p
              · rw [if_pos (by simpa using h404)]
                simp

/-- C8: a PUT rejected with HTTP 409 (stale fingerprint) surfaces as the
write-error outcome carrying the status code and body verbatim — an outcome
distinct from the transport-failure outcome (a raised request exception) —
and the handler never issues more than one PUT for a submission (no
automatic retry on either kind of failure). -/
theorem C8_conflict_distinct_from_transport_no_retry
    (form : FormInput) (cfg : GhConfig) (resp put : HttpResp) (r : Rec)
    (hbuild : build_event_payload form.name form.year form.dates form.summary form.deaths
      form.damages form.counties_str form.markers_json form.geojson_text
      form.photos_json form.resources_json = Except.ok r)
    (hcfg : ¬ (cfg.token = "" ∨ cfg.repo = ""))
    (hstat : resp.status = 200 ∨ resp.status = 404)
    (hconflict : put.status = 409) :
    submitHandler form cfg (Except.ok resp) (Except.ok put) =
      (Outcome.writeError 409 put.text, 1, 1) ∧
    (∀ (s : Nat) (t msg : String), Outcome.writeError s t ≠ Outcome.submitFailed msg) ∧
    (∀ (f2 : FormInput) (c2 : GhConfig) (g2 p2 : Except String HttpResp),
      (submitHandler f2 c2 g2 p2).2.2 ≤ 1) := by
  have hid : alistLookup r "id" = some (Val.str (make_id form.year form.name)) :=
    build_ok_has_id form.name form.year form.dates form.summary form.deaths form.damages
      form.counties_str form.markers_json form.geojson_text form.photos_json
      form.resources_json r hbuild
  have hput : ∀ ex : List Val, handlePut r ex (Except.ok put) =
      (Outcome.writeError 409 put.text, 1, 1) := by
    intro ex
    cases happ : append_event_to_yaml ex r with
    | none =>
        simp only [append_event_to_yaml, hid] at happ
        simp at happ
    | some l =>
        simp only [handlePut, happ]
        have hcond : ¬ (put.status = 200 ∨ put.status = 201) := by
          rw [hconflict]
          simp
        rw [if_neg hcond, hconflict]
  refine ⟨?_, fun s t msg h => Outcome.noConfusion h, submitHandler_puts_le_one⟩
  simp only [submitHandler, hbuild]
  rw [if_neg hcfg]
  rcases hstat with h | h
  · rw [if_pos h]
    exact hput (resp.content.getD [])
  · have h200 : ¬ resp.status = 200 := by
      rw [h]
      simp
    rw [if_neg h200, if_neg (by simpa using h)]
    exact hput []

/-- Witness for `C8_conflict_distinct_from_transport_no_retry` with a
concrete valid submission and a 409 PUT response. -/
theorem C8_witness :
    build_event_payload "x" 2000 "" "y" 0 0 "" ""
        "\x7b\"type\":\"FeatureCollection\",\"features\":[]\x7d" "" "" =
      Except.ok
        [("id", Val.str "2000_x"), ("name", Val.str "x"), ("year", Val.num 2000),
         ("dates", Val.str ""), ("summary", Val.str "y"), ("deaths", Val.num 0),
         ("damages_usd_bil", Val.null), ("counties", Val.list []),
         ("geojson", Val.map [("type", Val.str "FeatureCollection"),
           ("features", Val.list [])]),
         ("markers", Val.list []), ("river_crests", Val.list []),
         ("photos", Val.list []), ("resources", Val.list [])] ∧
    ¬ (("tok" : String) = "" ∨ ("owner/repo" : String) = "") ∧
    ((200 : Nat) = 200 ∨ (200 : Nat) = 404) ∧
    (409 : Nat) = 409 ∧
    (submitHandler
        ⟨"x", 2000, "", 0, 0, "", "y", "",
          "\x7b\"type\":\"FeatureCollection\",\"features\":[]\x7d", "", ""⟩
        ⟨"tok", "owner/repo", "main", "data/events.yaml"⟩
        (Except.ok ⟨200, some "abc123", some [], "ok"⟩)
        (Except.ok ⟨409, none, none, "conflict: is at abc124"⟩) =
      (Outcome.writeError 409 "conflict: is at abc124", 1, 1) ∧
    (∀ (s : Nat) (t msg : String), Outcome.writeError s t ≠ Outcome.submitFailed msg) ∧
    (∀ (f2 : FormInput) (c2 : GhConfig) (g2 p2 : Except String HttpResp),
      (submitHandler f2 c2 g2 p2).2.2 ≤ 1)) := by
  refine ⟨by decide, by decide, Or.inl rfl, rfl, ?_⟩
  exact C8_conflict_distinct_from_transport_no_retry
    ⟨"x", 2000, "", 0, 0, "", "y", "",
      "\x7b\"type\":\"FeatureCollection\",\"features\":[]\x7d", "", ""⟩
    ⟨"tok", "owner/repo", "main", "data/events.yaml"⟩
    ⟨200, some "abc123", some [], "ok"⟩
    ⟨409, none, none, "conflict: is at abc124"⟩
    [("id", Val.str "2000_x"), ("name", Val.str "x"), ("year", Val.num 2000),
     ("dates", Val.str ""), ("summary", Val.str "y"), ("deaths", Val.num 0),
     ("damages_usd_bil", Val.null), ("counties", Val.list []),
     ("geojson", Val.map [("type", Val.str "FeatureCollection"),
       ("features", Val.list [])]),
     ("markers", Val.list []), ("river_crests", Val.list []),
     ("photos", Val.list []), ("resources", Val.list [])]
    (by decide) (by decide) (Or.inl rfl) rfl

/-- Witness for `C10_zero_damages_stored_as_none`: damages 0 is stored as
`None`, damages 2 is stored as the number 2. -/
theorem C10_witness :
    build_event_payload "x" 2000 "" "y" 0 0 "" ""
        "\x7b\"type\":\"FeatureCollection\",\"features\":[]\x7d" "" "" =
      Except.ok
        [("id", Val.str "2000_x"), ("name", Val.str "x"), ("year", Val.num 2000),
         ("dates", Val.str ""), ("summary", Val.str "y"), ("deaths", Val.num 0),
         ("damages_usd_bil", Val.null), ("counties", Val.list []),
         ("geojson", Val.map [("type", Val.str "FeatureCollection"),
           ("features", Val.list [])]),
         ("markers", Val.list []), ("river_crests", Val.list []),
         ("photos", Val.list []), ("resources", Val.list [])] ∧
    (((0 : ℚ) = 0 →
      alistLookup
        [("id", Val.str "2000_x"), ("name", Val.str "x"), ("year", Val.num 2000),
         ("dates", Val.str ""), ("summary", Val.str "y"), ("deaths", Val.num 0),
         ("damages_usd_bil", Val.null), ("counties", Val.list []),
         ("geojson", Val.map [("type", Val.str "FeatureCollection"),
           ("features", Val.list [])]),
         ("markers", Val.list []), ("river_crests", Val.list []),
         ("photos", Val.list []), ("resources", Val.list [])] "damages_usd_bil" =
        some Val.null) ∧
     ((0 : ℚ) ≠ 0 →
      alistLookup
        [("id", Val.str "2000_x"), ("name", Val.str "x"), ("year", Val.num 2000),
         ("dates", Val.str ""), ("summary", Val.str "y"), ("deaths", Val.num 0),
         ("damages_usd_bil", Val.null), ("counties", Val.list []),
         ("geojson", Val.map [("type", Val.str "FeatureCollection"),
           ("features", Val.list [])]),
         ("markers", Val.list []), ("river_crests", Val.list []),
         ("photos", Val.list []), ("resources", Val.list [])] "damages_usd_bil" =
        some (Val.num 0))) ∧
    build_event_payload "x" 2000 "" "y" 0 2 "" ""
        "\x7b\"type\":\"FeatureCollection\",\"features\":[]\x7d" "" "" =
      Except.ok
        [("id", Val.str "2000_x"), ("name", Val.str "x"), ("year", Val.num 2000),
         ("dates", Val.str ""), ("summary", Val.str "y"), ("deaths", Val.num 0),
         ("damages_usd_bil", Val.num 2), ("counties", Val.list []),
         ("geojson", Val.map [("type", Val.str "FeatureCollection"),
           ("features", Val.list [])]),
         ("markers", Val.list []), ("river_crests", Val.list []),
         ("photos", Val.list []), ("resources", Val.list [])] ∧
    ((2 : ℚ) ≠ 0 →
      alistLookup
        [("id", Val.str "2000_x"), ("name", Val.str "x"), ("year", Val.num 2000),
         ("dates", Val.str ""), ("summary", Val.str "y"), ("deaths", Val.num 0),
         ("damages_usd_bil", Val.num 2), ("counties", Val.list []),
         ("geojson", Val.map [("type", Val.str "FeatureCollection"),
           ("features", Val.list [])]),
         ("markers", Val.list []), ("river_crests", Val.list []),
         ("photos", Val.list []), ("resources", Val.list [])] "damages_usd_bil" =
        some (Val.num 2)) := by
  refine ⟨by decide, ?_, by decide, ?_⟩
  · exact C10_zero_damages_stored_as_none "x" 2000 "" "y" 0 0 "" ""
      "\x7b\"type\":\"FeatureCollection\",\"features\":[]\x7d" "" "" _ (by decide)
  · exact (C10_zero_damages_stored_as_none "x" 2000 "" "y" 0 2 "" ""
      "\x7b\"type\":\"FeatureCollection\",\"features\":[]\x7d" "" "" _ (by decide)).2

/-!
## C9: idempotence of the upsert into the persisted blob
-/

theorem mem_dictInsert {κ α : Type} [DecidableEq κ] {m : List (κ × α)} {k : κ} {v : α}
    {p : κ × α} (h : p ∈ dictInsert m k v) : p ∈ m ∨ p = (k, v) := by
  unfold dictInsert at h
  by_cases hf : (m.find? (fun q => q.1 = k)).isSome
  · rw [if_pos hf] at h
    obtain ⟨q, hq, he⟩ := List.mem_map.1 h
    by_cases hqk : q.1 = k
    · rw [if_pos hqk] at he
      exact Or.inr he.symm
    · rw [if_neg hqk] at he
      exact Or.inl (he ▸ hq)
  · rw [if_neg hf] at h
    rcases List.mem_append.1 h with h1 | h1
    · exact Or.inl h1
    · exact Or.inr (List.mem_singleton.1 h1)

/-- The id value under which a record is keyed (`e.get("id")`). -/
def theId (rc : Rec) : Val := (alistLookup rc "id").getD Val.null

/-- Invariant of the by-id dicts built by the upsert: keys are distinct and
every entry is keyed by its record's own id. -/
def GoodById (m : List (Val × Rec)) : Prop :=
  (dictKeys m).Nodup ∧ ∀ p ∈ m, alistLookup p.2 "id" = some p.1

theorem goodById_insert {m : List (Val × Rec)} {k : Val} {v : Rec}
    (h : GoodById m) (hv : alistLookup v "id" = some k) : GoodById (dictInsert m k v) := by
  refine ⟨dictKeys_nodup_dictInsert m k v h.1, ?_⟩
  intro p hp
  rcases mem_dictInsert hp with hm | he
  · exact h.2 p hm
  · subst he
    exact hv

theorem goodById_fold (data : List Val) :
    ∀ m, GoodById m → GoodById (data.foldl upsertStep m) := by
  induction data with
  | nil => exact fun m h => h
  | cons e data ih =>
      intro m h
      rw [List.foldl_cons]
      apply ih
      cases e with
      | map em =>
          cases hid : alistLookup em "id" with
          | some j =>
              rw [show upsertStep m (Val.map em) = dictInsert m j em by
                simp [upsertStep, hid]]
              exact goodById_insert h hid
          | none =>
              rw [show upsertStep m (Val.map em) = m by simp [upsertStep, hid]]
              exact h
      | null => exact h
      | bool b => exact h
      | num q => exact h
      | str s => exact h
      | list l => exact h

theorem upsertFold_of_fresh :
    ∀ (l : List Rec) (m : List (Val × Rec)),
      (∀ rc ∈ l, ∃ j, alistLookup rc "id" = some j ∧ dictFind m j = none) →
      List.Pairwise (fun a b : Rec => alistLookup a "id" ≠ alistLookup b "id") l →
      (l.map Val.map).foldl upsertStep m = m ++ l.map (fun rc => (theId rc, rc)) := by
  intro l
  induction l with
  | nil =>
      intro m _ _
      simp
  | cons rc rest ih =>
      intro m hfresh hpair
      obtain ⟨j, hj, hfm⟩ := hfresh rc (List.mem_cons_self _ _)
      rw [List.map_cons, List.foldl_cons]
      have hstep : upsertStep m (Val.map rc) = m ++ [(j, rc)] := by
        simp only [upsertStep, hj]
        exact dictInsert_of_not_mem rc ((dictFind_eq_none_iff m j).1 hfm)
      rw [hstep]
      have hpair' := List.pairwise_cons.1 hpair
      have hfresh' : ∀ rc2 ∈ rest, ∃ j2, alistLookup rc2 "id" = some j2 ∧
          dictFind (m ++ [(j, rc)]) j2 = none := by
        intro rc2 h2
        obtain ⟨j2, hj2, hfm2⟩ := hfresh rc2 (List.mem_cons_of_mem _ h2)
        refine ⟨j2, hj2, ?_⟩
        have hne : j2 ≠ j := by
          intro he
          apply hpair'.1 rc2 h2
          rw [hj, hj2, he]
        rw [find_append_ne m rc hne]
        exact hfm2
      rw [ih (m ++ [(j, rc)]) hfresh' hpair'.2]
      have hidr : theId rc = j := by simp [theId, hj]
      rw [List.map_cons, hidr]
      simp

/-- C9: the append/replace-by-id upsert into the persisted blob is
idempotent — applying it a second time with the identical record yields the
same store (hence the same serialized blob) as applying it once.  The
`yearOk` hypotheses state that the year sort keys involved are numeric or
absent, the domain on which the Python sort is defined. -/
theorem C9_upsert_idempotent (data : List Val) (r : Rec) (i : Val) (out : List Rec)
    (hid : alistLookup r "id" = some i)
    (_hyr : yearOk r)
    (_hyd : ∀ em : List (String × Val), Val.map em ∈ data → yearOk em)
    (h1 : append_event_to_yaml data r = some out) :
    append_event_to_yaml (out.map Val.map) r = some out := by
  simp only [append_event_to_yaml, hid] at h1 ⊢
  set m0 := data.foldl upsertStep [] with hm0
  set d1 := dictInsert m0 i r with hd1
  have hout : out = List.insertionSort yearLE (d1.map (fun p => p.2)) :=
    (Option.some.inj h1).symm
  have hgood1 : GoodById d1 :=
    goodById_insert (goodById_fold data []
      ⟨List.nodup_nil, fun p hp => absurd hp (List.not_mem_nil p)⟩) hid
  have hsorted : List.Sorted yearLE out := by
    rw [hout]
    exact List.sorted_insertionSort yearLE _
  have hperm : List.Perm out (d1.map (fun p => p.2)) := by
    rw [hout]
    exact List.perm_insertionSort yearLE _
  have hvals_ids : (d1.map (fun p => p.2)).map (fun rc => alistLookup rc "id") =
      (dictKeys d1).map some := by
    unfold dictKeys
    rw [List.map_map, List.map_map]
    exact List.map_congr_left (fun p hp => hgood1.2 p hp)
  have hnodup_ids : (out.map (fun rc => alistLookup rc "id")).Nodup := by
    refine ((hperm.map (fun rc => alistLookup rc "id")).nodup_iff).2 ?_
    rw [hvals_ids]
    exact hgood1.1.map (Option.some_injective Val)
  have hpair : List.Pairwise
      (fun a b : Rec => alistLookup a "id" ≠ alistLookup b "id") out :=
    List.pairwise_map.1 hnodup_ids
  have hfresh : ∀ rc ∈ out, ∃ j, alistLookup rc "id" = some j ∧
      dictFind ([] : List (Val × Rec)) j = none := by
    intro rc hrc
    obtain ⟨p, hp, he⟩ := List.mem_map.1 ((hperm.mem_iff).1 hrc)
    exact ⟨p.1, he ▸ hgood1.2 p hp, rfl⟩
  have hfold : (out.map Val.map).foldl upsertStep [] =
      out.map (fun rc => (theId rc, rc)) := by
    rw [upsertFold_of_fresh out [] hfresh hpair, List.nil_append]
  have hrin : r ∈ out := by
    refine (hperm.mem_iff).2 (List.mem_map.2 ⟨(i, r), ?_, rfl⟩)
    exact mem_of_dictFind_eq_some (dictFind_dictInsert_self m0 i r)
  have hkeys : dictKeys (out.map (fun rc => (theId rc, rc))) = out.map theId := by
    unfold dictKeys
    rw [List.map_map]
    rfl
  have hkeysnodup : (dictKeys (out.map (fun rc => (theId rc, rc)))).Nodup := by
    rw [hkeys]
    have hcong : out.map (fun rc => alistLookup rc "id") =
        out.map (fun rc => some (theId rc)) := by
      apply List.map_congr_left
      intro rc hrc
      obtain ⟨j, hj, -⟩ := hfresh rc hrc
      rw [hj]
      simp [theId, hj]
    rw [hcong] at hnodup_ids
    have hsn : (List.map some (out.map theId)).Nodup := by
      rw [List.map_map]
      exact hnodup_ids
    exact hsn.of_map some
  have hmem1 : (i, r) ∈ out.map (fun rc => (theId rc, rc)) := by
    refine List.mem_map.2 ⟨r, hrin, ?_⟩
    simp [theId, hid]
  have hins : dictInsert (out.map (fun rc => (theId rc, rc))) i r =
      out.map (fun rc => (theId rc, rc)) :=
    dictInsert_eq_self_of_mem hkeysnodup hmem1
  have hvals : (out.map (fun rc => (theId rc, rc))).map (fun p => p.2) = out := by
    have hfun : ((fun p : Val × Rec => p.2) ∘ fun rc : Rec => (theId rc, rc)) =
        fun rc => rc := rfl
    rw [List.map_map, hfun]
    exact List.map_id' out
  rw [hfold, hins, hvals, List.Sorted.insertionSort_eq hsorted]

/-- Witness for `C9_upsert_idempotent`: a prior blob with one record,
upserting a replacement for it. -/
theorem C9_witness :
    alistLookup [("id", Val.str "a"), ("year", Val.num 2000)] "id" =
      some (Val.str "a") ∧
    yearOk [("id", Val.str "a"), ("year", Val.num 2000)] ∧
    (∀ em : List (String × Val),
      Val.map em ∈ [Val.map [("id", Val.str "a"), ("year", Val.num 1937)]] →
      yearOk em) ∧
    append_event_to_yaml [Val.map [("id", Val.str "a"), ("year", Val.num 1937)]]
        [("id", Val.str "a"), ("year", Val.num 2000)] =
      some [[("id", Val.str "a"), ("year", Val.num 2000)]] ∧
    append_event_to_yaml
        (([[("id", Val.str "a"), ("year", Val.num 2000)]] : List Rec).map Val.map)
        [("id", Val.str "a"), ("year", Val.num 2000)] =
      some [[("id", Val.str "a"), ("year", Val.num 2000)]] := by
  have hyd : ∀ em : List (String × Val),
      Val.map em ∈ [Val.map [("id", Val.str "a"), ("year", Val.num 1937)]] →
      yearOk em := by
    intro em hm
    rcases List.mem_singleton.1 hm with he
    have : em = [("id", Val.str "a"), ("year", Val.num 1937)] := by
      exact Val.map.inj he
    subst this
    exact Or.inr ⟨1937, by decide⟩
  refine ⟨by decide, Or.inr ⟨2000, by decide⟩, hyd, by decide, ?_⟩
  exact C9_upsert_idempotent [Val.map [("id", Val.str "a"), ("year", Val.num 1937)]]
    [("id", Val.str "a"), ("year", Val.num 2000)] (Val.str "a")
    [[("id", Val.str "a"), ("year", Val.num 2000)]]
    (by decide) (Or.inr ⟨2000, by decide⟩) hyd (by decide)
